import Mathlib

/-!
Finit run-level state machine (sm.c)

A shallow embedding of `sm_init`, `sm_set_runlevel`, `sm_set_reload`,
`sm_is_in_teardown` and `sm_step` of `src/sm.c`.

* `sm_t` carries the four fields the code reads and writes
  (`state`, `newlevel`, `reload`, `in_teardown`), all C `int`s except the
  state enumeration.  No arithmetic is performed on them, so `Int` is exact.
* The process-wide globals `runlevel` and `prevlevel` are fields of `Ctx`.
* Every collaborator call (`service_step_all`, `runlevel_set`, ...) is
  recorded, in order, in `Ctx.trace`, together with the value of
  `sm->in_teardown` at the time of the call.
* `/etc/nologin` is a boolean set by `touch` and cleared by `erase`.
* `do_shutdown` is a recorded call that returns, as the statements that
  follow it in the source (`sm->state = SM_RUNNING_STATE; break;`) expect.
* `service_stop_is_done` is an oracle: its k-th invocation (counted over the
  whole life of the context, `Ctx.polls`) answers `stop_done k`.
* The debug line `_d("state: %s", sm_status(sm))` executed at the `restart:`
  label is kept as `Ctx.visited`, the list of states the loop went through.
  The other `_d` lines carry no information and are left out.
* The `goto restart` loop is a well-founded recursion, so `sm_step` is a
  total function.
-/

namespace Finit

/-- The enumeration `sm_state_t` switched on by `sm_status` and `sm_step`. -/
inductive sm_state_t where
  | SM_BOOTSTRAP_STATE
  | SM_RUNNING_STATE
  | SM_RUNLEVEL_CHANGE_STATE
  | SM_RUNLEVEL_WAIT_STATE
  | SM_RELOAD_CHANGE_STATE
  | SM_RELOAD_WAIT_STATE
  deriving DecidableEq, Repr

/-- The service type flags named in `sm_step`.  Their numeric values live in a
header that is not part of the sources, so an or-ed mask is kept symbolic as
the list of the flags that are or-ed together. -/
inductive svc_type_t where
  | SVC_TYPE_RUN
  | SVC_TYPE_TASK
  | SVC_TYPE_SERVICE
  | SVC_TYPE_INETD
  | SVC_TYPE_ANY
  deriving DecidableEq, Repr

/-- The hook points named in `sm_step`. -/
inductive hook_point_t where
  | HOOK_RUNLEVEL_CHANGE
  | HOOK_SVC_RECONF
  deriving DecidableEq, Repr

/-- The shutdown modes named in `sm_step`. -/
inductive shutop_t where
  | SHUT_OFF
  | SHUT_REBOOT
  deriving DecidableEq, Repr

/-- One call from `sm_step` into a collaborator, with its arguments (and, for
the poll `service_stop_is_done`, its answer). -/
inductive Call where
  | service_step_all (types : List svc_type_t)
  | runlevel_set (prev : Int) (next : Int)
  | conf_reload_dynamic
  | cond_reload
  | service_stop_is_done (answer : Bool)
  | plugin_run_hooks (hook : hook_point_t)
  | svc_clean_dynamic_service_unregister
  | touch (path : String)
  | erase (path : String)
  | do_shutdown (mode : shutop_t)
  | tty_runlevel (level : Int)
  deriving DecidableEq, Repr

/-- A recorded collaborator call and the value `sm->in_teardown` had when the
call was made (what `sm_is_in_teardown` would have told the collaborator). -/
structure call_record where
  call : Call
  in_teardown : Int
  deriving DecidableEq, Repr

/-- The struct `sm_t`. -/
structure sm_t where
  state : sm_state_t
  newlevel : Int
  reload : Int
  in_teardown : Int
  deriving DecidableEq, Repr

/-- Everything `sm_step` reads or writes: the machine, the two global levels,
the login marker, the number of stop-done polls answered so far, the
collaborator calls made so far and the states logged at `restart:`. -/
structure Ctx where
  sm : sm_t
  runlevel : Int
  prevlevel : Int
  nologin : Bool
  polls : Nat
  trace : List call_record
  visited : List sm_state_t
  deriving DecidableEq, Repr

open sm_state_t svc_type_t hook_point_t shutop_t

/-- The function `sm_init` (sm.c lines 40-46). -/
def sm_init (c : Ctx) : Ctx :=
  { c with sm := { state := SM_BOOTSTRAP_STATE, newlevel := -1, reload := 0, in_teardown := 0 } }

/-- The function `sm_set_runlevel` (sm.c lines 74-77). -/
def sm_set_runlevel (c : Ctx) (newlevel : Int) : Ctx :=
  { c with sm := { c.sm with newlevel := newlevel } }

/-- The function `sm_set_reload` (sm.c lines 79-82). -/
def sm_set_reload (c : Ctx) : Ctx :=
  { c with sm := { c.sm with reload := 1 } }

/-- The function `sm_is_in_teardown` (sm.c lines 84-87). -/
def sm_is_in_teardown (c : Ctx) : Int :=
  c.sm.in_teardown

/-- Record a collaborator call that returns nothing and changes nothing the
state machine reads. -/
def emit (c : Ctx) (k : Call) : Ctx :=
  { c with trace := c.trace ++ [⟨k, c.sm.in_teardown⟩] }

/-- The poll `service_stop_is_done()`: the oracle answers, and the poll is
counted and recorded. -/
def service_stop_is_done (stop_done : Nat → Bool) (c : Ctx) : Bool × Ctx :=
  (stop_done c.polls,
   { emit c (Call.service_stop_is_done (stop_done c.polls)) with polls := c.polls + 1 })

/-- The call `touch(path)`: creates the login marker. -/
def touch (c : Ctx) (path : String) : Ctx :=
  { emit c (Call.touch path) with nologin := true }

/-- The call `erase(path)`: removes the login marker. -/
def erase (c : Ctx) (path : String) : Ctx :=
  { emit c (Call.erase path) with nologin := false }

/-- Assignment `sm->state = s`. -/
def set_state (c : Ctx) (s : sm_state_t) : Ctx :=
  { c with sm := { c.sm with state := s } }

/-- Assignment `sm->in_teardown = v`. -/
def set_in_teardown (c : Ctx) (v : Int) : Ctx :=
  { c with sm := { c.sm with in_teardown := v } }

/-- Assignment `sm->newlevel = v`. -/
def set_newlevel (c : Ctx) (v : Int) : Ctx :=
  { c with sm := { c.sm with newlevel := v } }

/-- Assignment `sm->reload = v`. -/
def set_reload (c : Ctx) (v : Int) : Ctx :=
  { c with sm := { c.sm with reload := v } }

/-- Assignment `prevlevel = v`. -/
def set_prevlevel (c : Ctx) (v : Int) : Ctx :=
  { c with prevlevel := v }

/-- Assignment `runlevel = v`. -/
def set_runlevel (c : Ctx) (v : Int) : Ctx :=
  { c with runlevel := v }

/-- The debug line `_d("state: %s", sm_status(sm))` at `restart:`. -/
def log_state (c : Ctx) : Ctx :=
  { c with visited := c.visited ++ [c.sm.state] }

/-- Case `SM_BOOTSTRAP_STATE` of the switch (sm.c lines 99-103). -/
def case_bootstrap (c : Ctx) : Ctx :=
  let c := emit c (Call.service_step_all [SVC_TYPE_RUN, SVC_TYPE_TASK, SVC_TYPE_SERVICE])
  set_state c SM_RUNNING_STATE

/-- Case `SM_RUNNING_STATE` of the switch (sm.c lines 105-120). -/
def case_running (c : Ctx) : Ctx :=
  if c.sm.newlevel ≥ 0 ∧ c.sm.newlevel ≤ 9 then
    if c.runlevel = c.sm.newlevel then
      set_newlevel c (-1)
    else
      set_state c SM_RUNLEVEL_CHANGE_STATE
  else if c.sm.reload ≠ 0 then
    let c := set_reload c 0
    set_state c SM_RELOAD_CHANGE_STATE
  else
    c

/-- Case `SM_RUNLEVEL_CHANGE_STATE` of the switch (sm.c lines 122-138). -/
def case_runlevel_change (c : Ctx) : Ctx :=
  let c := set_prevlevel c c.runlevel
  let c := set_runlevel c c.sm.newlevel
  let c := set_newlevel c (-1)
  let c := emit c (Call.runlevel_set c.prevlevel c.runlevel)
  let c := emit c Call.conf_reload_dynamic
  let c := set_in_teardown c 1
  let c := emit c (Call.service_step_all [SVC_TYPE_ANY])
  set_state c SM_RUNLEVEL_WAIT_STATE

/-- Lines 157-161: the login marker is created in levels 1, 0 and 6 and removed
in every other level. -/
def update_nologin (c : Ctx) : Ctx :=
  if c.runlevel = 1 ∨ c.runlevel = 0 ∨ c.runlevel = 6 then
    touch c "/etc/nologin"
  else
    erase c "/etc/nologin"

/-- Lines 174-176: the ttys are started unless the previous level is not a
positive one. -/
def start_ttys (c : Ctx) : Ctx :=
  if c.prevlevel > 0 then emit c (Call.tty_runlevel c.runlevel) else c

/-- Case `SM_RUNLEVEL_WAIT_STATE` of the switch (sm.c lines 140-179). -/
def case_runlevel_wait (stop_done : Nat → Bool) (c : Ctx) : Ctx :=
  let r := service_stop_is_done stop_done c
  let c := r.2
  if !r.1 then
    c
  else
    let c := emit c (Call.plugin_run_hooks HOOK_RUNLEVEL_CHANGE)
    let c := set_in_teardown c 0
    let c := emit c (Call.service_step_all [SVC_TYPE_ANY])
    let c := emit c Call.svc_clean_dynamic_service_unregister
    let c := update_nologin c
    if 0 = c.runlevel then
      let c := emit c (Call.do_shutdown SHUT_OFF)
      set_state c SM_RUNNING_STATE
    else if 6 = c.runlevel then
      let c := emit c (Call.do_shutdown SHUT_REBOOT)
      set_state c SM_RUNNING_STATE
    else
      let c := start_ttys c
      set_state c SM_RUNNING_STATE

/-- Case `SM_RELOAD_CHANGE_STATE` of the switch (sm.c lines 181-193). -/
def case_reload_change (c : Ctx) : Ctx :=
  let c := emit c Call.conf_reload_dynamic
  let c := set_in_teardown c 1
  let c := emit c Call.cond_reload
  let c := emit c (Call.service_step_all [SVC_TYPE_SERVICE, SVC_TYPE_INETD])
  set_state c SM_RELOAD_WAIT_STATE

/-- Case `SM_RELOAD_WAIT_STATE` of the switch (sm.c lines 195-215). -/
def case_reload_wait (stop_done : Nat → Bool) (c : Ctx) : Ctx :=
  let r := service_stop_is_done stop_done c
  let c := r.2
  if !r.1 then
    c
  else
    let c := set_in_teardown c 0
    let c := emit c Call.svc_clean_dynamic_service_unregister
    let c := emit c (Call.service_step_all [SVC_TYPE_SERVICE, SVC_TYPE_INETD])
    let c := emit c (Call.plugin_run_hooks HOOK_SVC_RECONF)
    let c := emit c (Call.service_step_all [SVC_TYPE_SERVICE, SVC_TYPE_INETD])
    set_state c SM_RUNNING_STATE

/-- The `switch (sm->state)` of `sm_step` (sm.c lines 98-216). -/
def sm_switch (stop_done : Nat → Bool) (c : Ctx) : Ctx :=
  match c.sm.state with
  | SM_BOOTSTRAP_STATE => case_bootstrap c
  | SM_RUNNING_STATE => case_running c
  | SM_RUNLEVEL_CHANGE_STATE => case_runlevel_change c
  | SM_RUNLEVEL_WAIT_STATE => case_runlevel_wait stop_done c
  | SM_RELOAD_CHANGE_STATE => case_reload_change c
  | SM_RELOAD_WAIT_STATE => case_reload_wait stop_done c

/-- One pass of `sm_step` from the label `restart:` to the test at line 218:
the state is logged, then the switch runs. -/
def sm_pass (stop_done : Nat → Bool) (c : Ctx) : Ctx :=
  sm_switch stop_done (log_state c)

/-- An upper bound on the number of state changes the loop of `sm_step` can
still make, from the state, the pending level, the reload flag and the
current level. -/
def measure_of (state : sm_state_t) (newlevel reload runlevel : Int) : Nat :=
  let r : Nat := if reload ≠ 0 then 3 else 0
  let run : Nat :=
    if newlevel ≥ 0 ∧ newlevel ≤ 9 then
      (if runlevel = newlevel then 0 else 3 + r)
    else r
  match state with
  | SM_BOOTSTRAP_STATE => 1 + run
  | SM_RUNNING_STATE => run
  | SM_RUNLEVEL_CHANGE_STATE => 2 + r
  | SM_RUNLEVEL_WAIT_STATE => 1 + run
  | SM_RELOAD_CHANGE_STATE => 2 + run
  | SM_RELOAD_WAIT_STATE => 1 + run

/-- The bound `measure_of` at a context. -/
def sm_measure (c : Ctx) : Nat :=
  measure_of c.sm.state c.sm.newlevel c.sm.reload c.runlevel

/-- The function `sm_step` (sm.c lines 89-221): passes are repeated (the
`goto restart`) for as long as a pass changes the state.  Each repeated pass
lowers `sm_measure`, so the loop ends. -/
def sm_step (stop_done : Nat → Bool) (c : Ctx) : Ctx :=
  if (sm_pass stop_done c).sm.state ≠ c.sm.state then
    sm_step stop_done (sm_pass stop_done c)
  else
    sm_pass stop_done c
termination_by sm_measure c
decreasing_by
  rename_i h
  have key : (sm_pass stop_done c).sm.state = c.sm.state ∨
      sm_measure (sm_pass stop_done c) < sm_measure c := by
    have hd2 : stop_done (log_state c).polls = stop_done c.polls := rfl
    unfold sm_pass sm_switch
    rcases hs : c.sm.state
    all_goals
      have hs2 : (log_state c).sm.state = _ := hs
      rw [hs2]
      simp only []
    · right
      show measure_of SM_RUNNING_STATE c.sm.newlevel c.sm.reload c.runlevel
        < measure_of c.sm.state c.sm.newlevel c.sm.reload c.runlevel
      rw [hs]; simp only [measure_of]; split_ifs <;> omega
    · unfold case_running
      split_ifs with h1 h2 h3
      · left; exact hs
      · right
        show measure_of SM_RUNLEVEL_CHANGE_STATE c.sm.newlevel c.sm.reload c.runlevel
          < measure_of c.sm.state c.sm.newlevel c.sm.reload c.runlevel
        have h1c : c.sm.newlevel ≥ 0 ∧ c.sm.newlevel ≤ 9 := h1
        have h2c : ¬ c.runlevel = c.sm.newlevel := h2
        rw [hs]; simp only [measure_of]; split_ifs <;> omega
      · right
        show measure_of SM_RELOAD_CHANGE_STATE c.sm.newlevel 0 c.runlevel
          < measure_of c.sm.state c.sm.newlevel c.sm.reload c.runlevel
        have h1c : ¬ (c.sm.newlevel ≥ 0 ∧ c.sm.newlevel ≤ 9) := h1
        have h3c : c.sm.reload ≠ 0 := h3
        rw [hs]; simp only [measure_of]; split_ifs <;> omega
      · left; exact hs
    · right
      show measure_of SM_RUNLEVEL_WAIT_STATE (-1) c.sm.reload c.sm.newlevel
        < measure_of c.sm.state c.sm.newlevel c.sm.reload c.runlevel
      rw [hs]; simp only [measure_of]; split_ifs <;> omega
    · unfold case_runlevel_wait
      simp only [service_stop_is_done, hd2]
      unfold update_nologin start_ttys
      split_ifs
      · left; exact hs
      all_goals
        right
        show measure_of SM_RUNNING_STATE c.sm.newlevel c.sm.reload c.runlevel
          < measure_of c.sm.state c.sm.newlevel c.sm.reload c.runlevel
        rw [hs]; simp only [measure_of]; split_ifs <;> omega
    · right
      show measure_of SM_RELOAD_WAIT_STATE c.sm.newlevel c.sm.reload c.runlevel
        < measure_of c.sm.state c.sm.newlevel c.sm.reload c.runlevel
      rw [hs]; simp only [measure_of]; split_ifs <;> omega
    · unfold case_reload_wait
      simp only [service_stop_is_done, hd2]
      split_ifs
      · left; exact hs
      · right
        show measure_of SM_RUNNING_STATE c.sm.newlevel c.sm.reload c.runlevel
          < measure_of c.sm.state c.sm.newlevel c.sm.reload c.runlevel
        rw [hs]; simp only [measure_of]; split_ifs <;> omega
  exact key.resolve_left h

/-! ## Vocabulary of the statements -/

/-- The collaborator calls recorded so far, without the teardown snapshots. -/
def calls (c : Ctx) : List Call :=
  c.trace.map call_record.call

/-- Recognises a call `runlevel_set(..)`. -/
def is_runlevel_set : Call → Bool
  | Call.runlevel_set _ _ => true
  | _ => false

/-- Recognises a call `do_shutdown(..)`. -/
def is_do_shutdown : Call → Bool
  | Call.do_shutdown _ => true
  | _ => false

/-- Recognises a call `tty_runlevel(..)`. -/
def is_tty_runlevel : Call → Bool
  | Call.tty_runlevel _ => true
  | _ => false

/-- The four states in which services are being stopped. -/
def teardown_state : sm_state_t → Bool
  | SM_RUNLEVEL_CHANGE_STATE => true
  | SM_RUNLEVEL_WAIT_STATE => true
  | SM_RELOAD_CHANGE_STATE => true
  | SM_RELOAD_WAIT_STATE => true
  | _ => false

/-- The operations a driver applies to the machine between two observations. -/
inductive Op where
  | set_runlevel (newlevel : Int)
  | set_reload
  | step
  deriving DecidableEq, Repr

/-- Apply one operation. -/
def apply_op (stop_done : Nat → Bool) (c : Ctx) : Op → Ctx
  | Op.set_runlevel v => sm_set_runlevel c v
  | Op.set_reload => sm_set_reload c
  | Op.step => sm_step stop_done c

/-- Apply a sequence of operations, first to last. -/
def run_ops (stop_done : Nat → Bool) (c : Ctx) (ops : List Op) : Ctx :=
  ops.foldl (apply_op stop_done) c

/-- What holds from the moment a change into the shutdown level `r0` has been
completed (with `n0` the level request that was pending then) until `sm_step`
returns.  `m` is the number of `do_shutdown(md)` calls and `a` the number of
all `do_shutdown` calls recorded when the change completed.  Either no new
change has started (first alternative), or the machine is about to assign the
pending level (second), or it has assigned it (third). -/
def after_shutdown (r0 n0 : Int) (md : shutop_t) (m a : Nat) (d : Ctx) : Prop :=
  (calls d).count (Call.do_shutdown md) = m ∧
  ((d.runlevel = r0 ∧ d.nologin = true ∧
      (d.sm.state = SM_RUNNING_STATE ∨ d.sm.state = SM_RELOAD_CHANGE_STATE ∨
        d.sm.state = SM_RELOAD_WAIT_STATE) ∧
      (d.sm.newlevel = n0 ∨ d.sm.newlevel = -1) ∧
      (calls d).countP is_do_shutdown = a) ∨
   (d.sm.state = SM_RUNLEVEL_CHANGE_STATE ∧ d.sm.newlevel = n0 ∧ n0 ≠ r0 ∧
      (0 ≤ n0 ∧ n0 ≤ 9) ∧ (calls d).countP is_do_shutdown = a) ∨
   (d.runlevel = n0 ∧ n0 ≠ r0 ∧ (0 ≤ n0 ∧ n0 ≤ 9) ∧ d.sm.newlevel = -1 ∧
      ((d.sm.state = SM_RUNLEVEL_WAIT_STATE ∧ (calls d).countP is_do_shutdown = a) ∨
       ((d.sm.state = SM_RUNNING_STATE ∨ d.sm.state = SM_RELOAD_CHANGE_STATE ∨
          d.sm.state = SM_RELOAD_WAIT_STATE) ∧
        (calls d).countP is_do_shutdown = a + (if n0 = 0 ∨ n0 = 6 then 1 else 0)))))

/-- How many more times the loop of `sm_step` can enter
SM_RUNLEVEL_CHANGE_STATE: once if it is there or a level in [0,9] is pending,
else never. -/
def change_budget (d : Ctx) : Nat :=
  if d.sm.state = SM_RUNLEVEL_CHANGE_STATE ∨ (0 ≤ d.sm.newlevel ∧ d.sm.newlevel ≤ 9) then 1
  else 0

/-- How many more times the loop of `sm_step` can enter
SM_RELOAD_CHANGE_STATE: once if it is there, and once more if the reload flag
is set. -/
def reload_budget (d : Ctx) : Nat :=
  (if d.sm.state = SM_RELOAD_CHANGE_STATE then 1 else 0) +
    (if d.sm.reload ≠ 0 then 1 else 0)

/-! ## Field lemmas for the primitive operations -/

@[simp] theorem emit_fields (c : Ctx) (k : Call) :
    (emit c k).sm = c.sm ∧ (emit c k).runlevel = c.runlevel ∧
    (emit c k).prevlevel = c.prevlevel ∧ (emit c k).nologin = c.nologin ∧
    (emit c k).polls = c.polls ∧ (emit c k).visited = c.visited ∧
    (emit c k).trace = c.trace ++ [⟨k, c.sm.in_teardown⟩] :=
  ⟨rfl, rfl, rfl, rfl, rfl, rfl, rfl⟩

@[simp] theorem service_stop_is_done_fields (f : Nat → Bool) (c : Ctx) :
    (service_stop_is_done f c).1 = f c.polls ∧
    (service_stop_is_done f c).2.sm = c.sm ∧
    (service_stop_is_done f c).2.runlevel = c.runlevel ∧
    (service_stop_is_done f c).2.prevlevel = c.prevlevel ∧
    (service_stop_is_done f c).2.nologin = c.nologin ∧
    (service_stop_is_done f c).2.polls = c.polls + 1 ∧
    (service_stop_is_done f c).2.visited = c.visited ∧
    (service_stop_is_done f c).2.trace =
      c.trace ++ [⟨Call.service_stop_is_done (f c.polls), c.sm.in_teardown⟩] :=
  ⟨rfl, rfl, rfl, rfl, rfl, rfl, rfl, rfl⟩

@[simp] theorem touch_fields (c : Ctx) (p : String) :
    (touch c p).sm = c.sm ∧ (touch c p).runlevel = c.runlevel ∧
    (touch c p).prevlevel = c.prevlevel ∧ (touch c p).nologin = true ∧
    (touch c p).polls = c.polls ∧ (touch c p).visited = c.visited ∧
    (touch c p).trace = c.trace ++ [⟨Call.touch p, c.sm.in_teardown⟩] :=
  ⟨rfl, rfl, rfl, rfl, rfl, rfl, rfl⟩

@[simp] theorem erase_fields (c : Ctx) (p : String) :
    (erase c p).sm = c.sm ∧ (erase c p).runlevel = c.runlevel ∧
    (erase c p).prevlevel = c.prevlevel ∧ (erase c p).nologin = false ∧
    (erase c p).polls = c.polls ∧ (erase c p).visited = c.visited ∧
    (erase c p).trace = c.trace ++ [⟨Call.erase p, c.sm.in_teardown⟩] :=
  ⟨rfl, rfl, rfl, rfl, rfl, rfl, rfl⟩

@[simp] theorem set_state_fields (c : Ctx) (s : sm_state_t) :
    (set_state c s).sm.state = s ∧ (set_state c s).sm.newlevel = c.sm.newlevel ∧
    (set_state c s).sm.reload = c.sm.reload ∧
    (set_state c s).sm.in_teardown = c.sm.in_teardown ∧
    (set_state c s).runlevel = c.runlevel ∧ (set_state c s).prevlevel = c.prevlevel ∧
    (set_state c s).nologin = c.nologin ∧ (set_state c s).polls = c.polls ∧
    (set_state c s).visited = c.visited ∧ (set_state c s).trace = c.trace :=
  ⟨rfl, rfl, rfl, rfl, rfl, rfl, rfl, rfl, rfl, rfl⟩

@[simp] theorem set_in_teardown_fields (c : Ctx) (v : Int) :
    (set_in_teardown c v).sm.state = c.sm.state ∧
    (set_in_teardown c v).sm.newlevel = c.sm.newlevel ∧
    (set_in_teardown c v).sm.reload = c.sm.reload ∧
    (set_in_teardown c v).sm.in_teardown = v ∧
    (set_in_teardown c v).runlevel = c.runlevel ∧
    (set_in_teardown c v).prevlevel = c.prevlevel ∧
    (set_in_teardown c v).nologin = c.nologin ∧ (set_in_teardown c v).polls = c.polls ∧
    (set_in_teardown c v).visited = c.visited ∧ (set_in_teardown c v).trace = c.trace :=
  ⟨rfl, rfl, rfl, rfl, rfl, rfl, rfl, rfl, rfl, rfl⟩

@[simp] theorem set_newlevel_fields (c : Ctx) (v : Int) :
    (set_newlevel c v).sm.state = c.sm.state ∧ (set_newlevel c v).sm.newlevel = v ∧
    (set_newlevel c v).sm.reload = c.sm.reload ∧
    (set_newlevel c v).sm.in_teardown = c.sm.in_teardown ∧
    (set_newlevel c v).runlevel = c.runlevel ∧ (set_newlevel c v).prevlevel = c.prevlevel ∧
    (set_newlevel c v).nologin = c.nologin ∧ (set_newlevel c v).polls = c.polls ∧
    (set_newlevel c v).visited = c.visited ∧ (set_newlevel c v).trace = c.trace :=
  ⟨rfl, rfl, rfl, rfl, rfl, rfl, rfl, rfl, rfl, rfl⟩

@[simp] theorem set_reload_fields (c : Ctx) (v : Int) :
    (set_reload c v).sm.state = c.sm.state ∧ (set_reload c v).sm.newlevel = c.sm.newlevel ∧
    (set_reload c v).sm.reload = v ∧
    (set_reload c v).sm.in_teardown = c.sm.in_teardown ∧
    (set_reload c v).runlevel = c.runlevel ∧ (set_reload c v).prevlevel = c.prevlevel ∧
    (set_reload c v).nologin = c.nologin ∧ (set_reload c v).polls = c.polls ∧
    (set_reload c v).visited = c.visited ∧ (set_reload c v).trace = c.trace :=
  ⟨rfl, rfl, rfl, rfl, rfl, rfl, rfl, rfl, rfl, rfl⟩

@[simp] theorem set_prevlevel_fields (c : Ctx) (v : Int) :
    (set_prevlevel c v).sm = c.sm ∧ (set_prevlevel c v).runlevel = c.runlevel ∧
    (set_prevlevel c v).prevlevel = v ∧ (set_prevlevel c v).nologin = c.nologin ∧
    (set_prevlevel c v).polls = c.polls ∧ (set_prevlevel c v).visited = c.visited ∧
    (set_prevlevel c v).trace = c.trace :=
  ⟨rfl, rfl, rfl, rfl, rfl, rfl, rfl⟩

@[simp] theorem set_runlevel_fields (c : Ctx) (v : Int) :
    (set_runlevel c v).sm = c.sm ∧ (set_runlevel c v).runlevel = v ∧
    (set_runlevel c v).prevlevel = c.prevlevel ∧ (set_runlevel c v).nologin = c.nologin ∧
    (set_runlevel c v).polls = c.polls ∧ (set_runlevel c v).visited = c.visited ∧
    (set_runlevel c v).trace = c.trace :=
  ⟨rfl, rfl, rfl, rfl, rfl, rfl, rfl⟩

@[simp] theorem log_state_fields (c : Ctx) :
    (log_state c).sm = c.sm ∧ (log_state c).runlevel = c.runlevel ∧
    (log_state c).prevlevel = c.prevlevel ∧ (log_state c).nologin = c.nologin ∧
    (log_state c).polls = c.polls ∧ (log_state c).trace = c.trace ∧
    (log_state c).visited = c.visited ++ [c.sm.state] :=
  ⟨rfl, rfl, rfl, rfl, rfl, rfl, rfl⟩

@[simp] theorem update_nologin_fields (c : Ctx) :
    (update_nologin c).sm = c.sm ∧ (update_nologin c).runlevel = c.runlevel ∧
    (update_nologin c).prevlevel = c.prevlevel ∧ (update_nologin c).polls = c.polls ∧
    (update_nologin c).visited = c.visited := by
  unfold update_nologin
  split <;> simp

@[simp] theorem start_ttys_fields (c : Ctx) :
    (start_ttys c).sm = c.sm ∧ (start_ttys c).runlevel = c.runlevel ∧
    (start_ttys c).prevlevel = c.prevlevel ∧ (start_ttys c).polls = c.polls ∧
    (start_ttys c).nologin = c.nologin ∧ (start_ttys c).visited = c.visited := by
  unfold start_ttys
  split <;> simp

/-! ## The cases of the switch, one lemma per branch -/

theorem case_running_same (c : Ctx) (h : 0 ≤ c.sm.newlevel ∧ c.sm.newlevel ≤ 9)
    (he : c.runlevel = c.sm.newlevel) : case_running c = set_newlevel c (-1) := by
  simp [case_running, h, he]

theorem case_running_change (c : Ctx) (h : 0 ≤ c.sm.newlevel ∧ c.sm.newlevel ≤ 9)
    (he : c.runlevel ≠ c.sm.newlevel) :
    case_running c = set_state c SM_RUNLEVEL_CHANGE_STATE := by
  simp [case_running, h, he]

theorem case_running_reload (c : Ctx) (h : ¬ (0 ≤ c.sm.newlevel ∧ c.sm.newlevel ≤ 9))
    (hr : c.sm.reload ≠ 0) :
    case_running c = set_state (set_reload c 0) SM_RELOAD_CHANGE_STATE := by
  unfold case_running
  rw [if_neg (by simpa using h), if_pos hr]

theorem case_running_idle (c : Ctx) (h : ¬ (0 ≤ c.sm.newlevel ∧ c.sm.newlevel ≤ 9))
    (hr : c.sm.reload = 0) : case_running c = c := by
  unfold case_running
  rw [if_neg (by simpa using h), if_neg (by simp [hr])]

theorem case_runlevel_wait_parked (f : Nat → Bool) (c : Ctx) (h : f c.polls = false) :
    case_runlevel_wait f c = (service_stop_is_done f c).2 := by
  simp [case_runlevel_wait, h]

theorem case_reload_wait_parked (f : Nat → Bool) (c : Ctx) (h : f c.polls = false) :
    case_reload_wait f c = (service_stop_is_done f c).2 := by
  simp [case_reload_wait, h]

/-- A completed reload wait, as the sequence of its statements. -/
theorem case_reload_wait_done (f : Nat → Bool) (c : Ctx) (h : f c.polls = true) :
    case_reload_wait f c =
      set_state
        (emit
          (emit
            (emit
              (emit (set_in_teardown (service_stop_is_done f c).2 0)
                Call.svc_clean_dynamic_service_unregister)
              (Call.service_step_all [SVC_TYPE_SERVICE, SVC_TYPE_INETD]))
            (Call.plugin_run_hooks HOOK_SVC_RECONF))
          (Call.service_step_all [SVC_TYPE_SERVICE, SVC_TYPE_INETD]))
        SM_RUNNING_STATE := by
  simp [case_reload_wait, h]

/-- The fields of the machine and the levels after a completed run-level
wait. -/
theorem case_runlevel_wait_done (f : Nat → Bool) (c : Ctx) (h : f c.polls = true) :
    (case_runlevel_wait f c).sm.state = SM_RUNNING_STATE ∧
    (case_runlevel_wait f c).sm.newlevel = c.sm.newlevel ∧
    (case_runlevel_wait f c).sm.reload = c.sm.reload ∧
    (case_runlevel_wait f c).sm.in_teardown = 0 ∧
    (case_runlevel_wait f c).runlevel = c.runlevel ∧
    (case_runlevel_wait f c).prevlevel = c.prevlevel ∧
    (case_runlevel_wait f c).polls = c.polls + 1 ∧
    (case_runlevel_wait f c).visited = c.visited := by
  simp only [case_runlevel_wait, service_stop_is_done_fields, h, Bool.not_true,
    Bool.false_eq_true, if_false]
  split_ifs <;> simp

/-- The login marker after a completed run-level wait. -/
theorem case_runlevel_wait_done_nologin (f : Nat → Bool) (c : Ctx) (h : f c.polls = true) :
    (case_runlevel_wait f c).nologin =
      decide (c.runlevel = 1 ∨ c.runlevel = 0 ∨ c.runlevel = 6) := by
  have e0 : (0 = c.runlevel) = (c.runlevel = 0) := propext eq_comm
  have e6 : (6 = c.runlevel) = (c.runlevel = 6) := propext eq_comm
  simp only [case_runlevel_wait, service_stop_is_done_fields, h, Bool.not_true,
    Bool.false_eq_true, if_false, update_nologin_fields, emit_fields, set_in_teardown_fields,
    e0, e6]
  by_cases h0 : c.runlevel = 0
  · simp [h0, update_nologin]
  · by_cases h6 : c.runlevel = 6
    · simp [h6, update_nologin]
    · by_cases h1 : c.runlevel = 1
      · simp [h1, update_nologin]
      · simp [h0, h6, h1, update_nologin]

/-- The collaborator calls of a completed run-level wait, in order. -/
theorem case_runlevel_wait_done_trace (f : Nat → Bool) (c : Ctx) (h : f c.polls = true) :
    (case_runlevel_wait f c).trace =
      c.trace ++
        [⟨Call.service_stop_is_done true, c.sm.in_teardown⟩,
         ⟨Call.plugin_run_hooks HOOK_RUNLEVEL_CHANGE, c.sm.in_teardown⟩,
         ⟨Call.service_step_all [SVC_TYPE_ANY], 0⟩,
         ⟨Call.svc_clean_dynamic_service_unregister, 0⟩,
         ⟨if c.runlevel = 1 ∨ c.runlevel = 0 ∨ c.runlevel = 6 then Call.touch "/etc/nologin"
          else Call.erase "/etc/nologin", 0⟩] ++
        (if 0 = c.runlevel then [⟨Call.do_shutdown SHUT_OFF, 0⟩]
         else if 6 = c.runlevel then [⟨Call.do_shutdown SHUT_REBOOT, 0⟩]
         else if c.prevlevel > 0 then [⟨Call.tty_runlevel c.runlevel, 0⟩]
         else []) := by
  have e0 : (0 = c.runlevel) = (c.runlevel = 0) := propext eq_comm
  have e6 : (6 = c.runlevel) = (c.runlevel = 6) := propext eq_comm
  simp only [case_runlevel_wait, service_stop_is_done_fields, h, Bool.not_true,
    Bool.false_eq_true, if_false, update_nologin_fields, emit_fields, set_in_teardown_fields,
    e0, e6]
  by_cases h0 : c.runlevel = 0
  · simp [h, h0, update_nologin]
  · by_cases h6 : c.runlevel = 6
    · simp [h, h6, update_nologin]
    · by_cases h1 : c.runlevel = 1 <;> by_cases hp : 0 < c.prevlevel <;>
        simp [h, h0, h6, h1, hp, update_nologin, start_ttys]

/-! ## One pass, state by state -/

theorem sm_pass_bootstrap (f : Nat → Bool) (c : Ctx) (hs : c.sm.state = SM_BOOTSTRAP_STATE) :
    sm_pass f c = case_bootstrap (log_state c) := by
  simp [sm_pass, sm_switch, hs]

theorem sm_pass_running (f : Nat → Bool) (c : Ctx) (hs : c.sm.state = SM_RUNNING_STATE) :
    sm_pass f c = case_running (log_state c) := by
  simp [sm_pass, sm_switch, hs]

theorem sm_pass_runlevel_change (f : Nat → Bool) (c : Ctx)
    (hs : c.sm.state = SM_RUNLEVEL_CHANGE_STATE) :
    sm_pass f c = case_runlevel_change (log_state c) := by
  simp [sm_pass, sm_switch, hs]

theorem sm_pass_runlevel_wait (f : Nat → Bool) (c : Ctx)
    (hs : c.sm.state = SM_RUNLEVEL_WAIT_STATE) :
    sm_pass f c = case_runlevel_wait f (log_state c) := by
  simp [sm_pass, sm_switch, hs]

theorem sm_pass_reload_change (f : Nat → Bool) (c : Ctx)
    (hs : c.sm.state = SM_RELOAD_CHANGE_STATE) :
    sm_pass f c = case_reload_change (log_state c) := by
  simp [sm_pass, sm_switch, hs]

theorem sm_pass_reload_wait (f : Nat → Bool) (c : Ctx)
    (hs : c.sm.state = SM_RELOAD_WAIT_STATE) :
    sm_pass f c = case_reload_wait f (log_state c) := by
  simp [sm_pass, sm_switch, hs]

/-- Every pass that changes the state lowers `sm_measure`. -/
theorem sm_measure_decreases (f : Nat → Bool) (c : Ctx)
    (h : (sm_pass f c).sm.state ≠ c.sm.state) :
    sm_measure (sm_pass f c) < sm_measure c := by
  rcases hs : c.sm.state
  · simp [sm_pass_bootstrap f c hs, case_bootstrap, sm_measure, measure_of, hs]
  · rw [sm_pass_running f c hs] at h ⊢
    by_cases hn : 0 ≤ c.sm.newlevel ∧ c.sm.newlevel ≤ 9
    · by_cases he : c.runlevel = c.sm.newlevel
      · rw [case_running_same (log_state c) hn he] at h
        simp [hs] at h
      · rw [case_running_change (log_state c) hn he]
        simp [sm_measure, measure_of, hs, hn, he]
    · by_cases hr : c.sm.reload = 0
      · rw [case_running_idle (log_state c) hn hr] at h
        simp [hs] at h
      · rw [case_running_reload (log_state c) hn hr]
        simp [sm_measure, measure_of, hs, hn, hr]
  · simp [sm_pass_runlevel_change f c hs, case_runlevel_change, sm_measure, measure_of, hs]
  · rw [sm_pass_runlevel_wait f c hs] at h ⊢
    rcases hd : f c.polls
    · rw [case_runlevel_wait_parked f (log_state c) hd] at h
      simp [hs] at h
    · have hf := case_runlevel_wait_done f (log_state c) hd
      simp only [sm_measure, hf, log_state_fields, hs, measure_of]
      omega
  · simp [sm_pass_reload_change f c hs, case_reload_change, sm_measure, measure_of, hs]
  · rw [sm_pass_reload_wait f c hs] at h ⊢
    rcases hd : f c.polls
    · rw [case_reload_wait_parked f (log_state c) hd] at h
      simp [hs] at h
    · simp [case_reload_wait_done f (log_state c) hd, sm_measure, measure_of, hs]

/-! ## The loop -/

theorem sm_step_unfold (f : Nat → Bool) (c : Ctx) :
    sm_step f c =
      if (sm_pass f c).sm.state ≠ c.sm.state then sm_step f (sm_pass f c)
      else sm_pass f c := by
  rw [sm_step]

/-- A pass that changes the state is followed by another pass. -/
theorem sm_step_go (f : Nat → Bool) (c : Ctx) (h : (sm_pass f c).sm.state ≠ c.sm.state) :
    sm_step f c = sm_step f (sm_pass f c) := by
  rw [sm_step_unfold, if_pos h]

/-- A pass that leaves the state alone is the last one. -/
theorem sm_step_stop (f : Nat → Bool) (c : Ctx) (h : (sm_pass f c).sm.state = c.sm.state) :
    sm_step f c = sm_pass f c := by
  rw [sm_step_unfold, if_neg (by simpa using h)]

/-- Induction along the loop of `sm_step`: a relation between the context at
a pass and the returned context that holds when the pass is the last one and
is carried back over a pass that changes the state. -/
theorem sm_step_rel (f : Nat → Bool) (R : Ctx → Ctx → Prop)
    (hstop : ∀ c, (sm_pass f c).sm.state = c.sm.state → R c (sm_pass f c))
    (hgo : ∀ c r, (sm_pass f c).sm.state ≠ c.sm.state → R (sm_pass f c) r → R c r)
    (c : Ctx) : R c (sm_step f c) := by
  induction c using WellFounded.induction (measure sm_measure).wf with
  | _ c ih =>
    by_cases h : (sm_pass f c).sm.state = c.sm.state
    · rw [sm_step_stop f c h]
      exact hstop c h
    · rw [sm_step_go f c h]
      exact hgo c _ h (ih _ (sm_measure_decreases f c h))

/-- A property kept by every pass holds when `sm_step` returns. -/
theorem sm_step_inv (f : Nat → Bool) (P : Ctx → Prop)
    (hpass : ∀ c, P c → P (sm_pass f c)) (c : Ctx) (h : P c) : P (sm_step f c) :=
  sm_step_rel f (fun c r => P c → P r) (fun c _ hc => hpass c hc)
    (fun c _ _ ih hc => ih (hpass c hc)) c h

/-- Case analysis of one pass: a property of the context after the pass
follows from the property of what each branch of the switch produces. -/
theorem sm_pass_elim (f : Nat → Bool) (c : Ctx) (Q : Ctx → Prop)
    (hboot : c.sm.state = SM_BOOTSTRAP_STATE → Q (case_bootstrap (log_state c)))
    (hsame : c.sm.state = SM_RUNNING_STATE → 0 ≤ c.sm.newlevel ∧ c.sm.newlevel ≤ 9 →
      c.runlevel = c.sm.newlevel → Q (set_newlevel (log_state c) (-1)))
    (hchange : c.sm.state = SM_RUNNING_STATE → 0 ≤ c.sm.newlevel ∧ c.sm.newlevel ≤ 9 →
      c.runlevel ≠ c.sm.newlevel → Q (set_state (log_state c) SM_RUNLEVEL_CHANGE_STATE))
    (hreload : c.sm.state = SM_RUNNING_STATE → ¬ (0 ≤ c.sm.newlevel ∧ c.sm.newlevel ≤ 9) →
      c.sm.reload ≠ 0 → Q (set_state (set_reload (log_state c) 0) SM_RELOAD_CHANGE_STATE))
    (hidle : c.sm.state = SM_RUNNING_STATE → ¬ (0 ≤ c.sm.newlevel ∧ c.sm.newlevel ≤ 9) →
      c.sm.reload = 0 → Q (log_state c))
    (hlc : c.sm.state = SM_RUNLEVEL_CHANGE_STATE → Q (case_runlevel_change (log_state c)))
    (hlwp : c.sm.state = SM_RUNLEVEL_WAIT_STATE → f c.polls = false →
      Q (service_stop_is_done f (log_state c)).2)
    (hlwd : c.sm.state = SM_RUNLEVEL_WAIT_STATE → f c.polls = true →
      Q (case_runlevel_wait f (log_state c)))
    (hrc : c.sm.state = SM_RELOAD_CHANGE_STATE → Q (case_reload_change (log_state c)))
    (hrwp : c.sm.state = SM_RELOAD_WAIT_STATE → f c.polls = false →
      Q (service_stop_is_done f (log_state c)).2)
    (hrwd : c.sm.state = SM_RELOAD_WAIT_STATE → f c.polls = true →
      Q (set_state
          (emit
            (emit
              (emit
                (emit (set_in_teardown (service_stop_is_done f (log_state c)).2 0)
                  Call.svc_clean_dynamic_service_unregister)
                (Call.service_step_all [SVC_TYPE_SERVICE, SVC_TYPE_INETD]))
              (Call.plugin_run_hooks HOOK_SVC_RECONF))
            (Call.service_step_all [SVC_TYPE_SERVICE, SVC_TYPE_INETD]))
          SM_RUNNING_STATE)) :
    Q (sm_pass f c) := by
  rcases hs : c.sm.state
  · rw [sm_pass_bootstrap f c hs]; exact hboot hs
  · rw [sm_pass_running f c hs]
    by_cases hn : 0 ≤ c.sm.newlevel ∧ c.sm.newlevel ≤ 9
    · by_cases he : c.runlevel = c.sm.newlevel
      · rw [case_running_same (log_state c) hn he]; exact hsame hs hn he
      · rw [case_running_change (log_state c) hn he]; exact hchange hs hn he
    · by_cases hr : c.sm.reload = 0
      · rw [case_running_idle (log_state c) hn hr]; exact hidle hs hn hr
      · rw [case_running_reload (log_state c) hn hr]; exact hreload hs hn hr
  · rw [sm_pass_runlevel_change f c hs]; exact hlc hs
  · rw [sm_pass_runlevel_wait f c hs]
    rcases hd : f c.polls
    · rw [case_runlevel_wait_parked f (log_state c) hd]; exact hlwp hs hd
    · exact hlwd hs hd
  · rw [sm_pass_reload_change f c hs]; exact hrc hs
  · rw [sm_pass_reload_wait f c hs]
    rcases hd : f c.polls
    · rw [case_reload_wait_parked f (log_state c) hd]; exact hrwp hs hd
    · rw [case_reload_wait_done f (log_state c) hd]; exact hrwd hs hd

/-- Every pass logs the state it starts in. -/
theorem sm_pass_visited (f : Nat → Bool) (c : Ctx) :
    (sm_pass f c).visited = c.visited ++ [c.sm.state] := by
  apply sm_pass_elim f c (fun d => d.visited = c.visited ++ [c.sm.state]) <;> intros <;>
    first
      | simp [case_bootstrap, case_runlevel_change, case_reload_change, case_reload_wait]
      | simp [case_runlevel_wait_done, *]

/-! ## C1: a request for another level from the running state -/

/-- Once the levels have been assigned for a request, no later pass of the
same call assigns them again: the properties below are kept by every pass. -/
theorem levels_assigned_kept (f : Nat → Bool) (v k : Nat) (n p : Int) (d : Ctx)
    (h : d.visited.count SM_RUNLEVEL_CHANGE_STATE = v ∧
      (calls d).countP is_runlevel_set = k ∧
      d.runlevel = n ∧ d.prevlevel = p ∧ d.sm.newlevel = -1 ∧
      d.sm.state ≠ SM_RUNLEVEL_CHANGE_STATE) :
    (sm_pass f d).visited.count SM_RUNLEVEL_CHANGE_STATE = v ∧
      (calls (sm_pass f d)).countP is_runlevel_set = k ∧
      (sm_pass f d).runlevel = n ∧ (sm_pass f d).prevlevel = p ∧
      (sm_pass f d).sm.newlevel = -1 ∧
      (sm_pass f d).sm.state ≠ SM_RUNLEVEL_CHANGE_STATE := by
  obtain ⟨hv, hk, hr, hp, hn, hs⟩ := h
  simp only [calls] at hk ⊢
  apply sm_pass_elim f d (fun e => e.visited.count SM_RUNLEVEL_CHANGE_STATE = v ∧
      (e.trace.map call_record.call).countP is_runlevel_set = k ∧
      e.runlevel = n ∧ e.prevlevel = p ∧ e.sm.newlevel = -1 ∧
      e.sm.state ≠ SM_RUNLEVEL_CHANGE_STATE)
  · intro h1
    simp [case_bootstrap, List.count_append, List.countP_append, is_runlevel_set, *]
  · intro h1 h2 h3
    simp [List.count_append, *]
  · intro h1 h2 h3
    rw [hn] at h2; omega
  · intro h1 h2 h3
    simp [List.count_append, *]
  · intro h1 h2 h3
    simp [List.count_append, *]
  · intro h1
    exact absurd h1 hs
  · intro h1 h2
    simp [List.count_append, List.countP_append, is_runlevel_set, *]
  · intro h1 h2
    have hf := case_runlevel_wait_done f (log_state d) h2
    have ht := case_runlevel_wait_done_trace f (log_state d) h2
    simp only [hf, ht, log_state_fields]
    refine ⟨by simp [List.count_append, *], ?_, hr, hp, hn, by simp⟩
    simp only [List.map_append, List.countP_append, hk]
    split_ifs <;> simp [is_runlevel_set]
  · intro h1
    simp [case_reload_change, List.count_append, List.countP_append, is_runlevel_set, *]
  · intro h1 h2
    simp [List.count_append, List.countP_append, is_runlevel_set, *]
  · intro h1 h2
    simp [List.count_append, List.countP_append, is_runlevel_set, *]

/-- C1: from SM_RUNNING_STATE with a pending level n in [0,9] different from
the current level c, whatever the reload flag and the stop-done answers,
sm_step goes through SM_RUNLEVEL_CHANGE_STATE exactly once, calls runlevel_set
exactly once, and returns with runlevel = n, prevlevel = c and newlevel = -1;
when the first stop-done answer is false it returns in SM_RUNLEVEL_WAIT_STATE
with in_teardown = 1. -/
theorem C1_runlevel_request_accepted (f : Nat → Bool) (c : Ctx) (n : Int)
    (hs : c.sm.state = SM_RUNNING_STATE) (hnl : c.sm.newlevel = n)
    (hn : 0 ≤ n ∧ n ≤ 9) (hne : n ≠ c.runlevel) :
    (sm_step f c).visited.count SM_RUNLEVEL_CHANGE_STATE =
        c.visited.count SM_RUNLEVEL_CHANGE_STATE + 1 ∧
      (calls (sm_step f c)).countP is_runlevel_set = (calls c).countP is_runlevel_set + 1 ∧
      (sm_step f c).runlevel = n ∧ (sm_step f c).prevlevel = c.runlevel ∧
      (sm_step f c).sm.newlevel = -1 ∧
      (f c.polls = false →
        (sm_step f c).sm.state = SM_RUNLEVEL_WAIT_STATE ∧ (sm_step f c).sm.in_teardown = 1) := by
  have hn2 : 0 ≤ c.sm.newlevel ∧ c.sm.newlevel ≤ 9 := by rw [hnl]; exact hn
  have hne2 : c.runlevel ≠ c.sm.newlevel := by rw [hnl]; exact fun e => hne e.symm
  -- first pass: SM_RUNNING_STATE to SM_RUNLEVEL_CHANGE_STATE
  have e1 : sm_pass f c = set_state (log_state c) SM_RUNLEVEL_CHANGE_STATE := by
    rw [sm_pass_running f c hs, case_running_change (log_state c) hn2 hne2]
  have g1 : sm_step f c = sm_step f (sm_pass f c) :=
    sm_step_go f c (by rw [e1, hs]; simp)
  -- second pass: the levels are assigned
  have s1 : (sm_pass f c).sm.state = SM_RUNLEVEL_CHANGE_STATE := by rw [e1]; simp
  have e2 : sm_pass f (sm_pass f c) = case_runlevel_change (log_state (sm_pass f c)) :=
    sm_pass_runlevel_change f _ s1
  have g2 : sm_step f (sm_pass f c) = sm_step f (sm_pass f (sm_pass f c)) :=
    sm_step_go f _ (by rw [e2, s1]; simp [case_runlevel_change])
  rw [g1, g2]
  have base : (sm_pass f (sm_pass f c)).visited.count SM_RUNLEVEL_CHANGE_STATE =
        c.visited.count SM_RUNLEVEL_CHANGE_STATE + 1 ∧
      (calls (sm_pass f (sm_pass f c))).countP is_runlevel_set =
        (calls c).countP is_runlevel_set + 1 ∧
      (sm_pass f (sm_pass f c)).runlevel = n ∧ (sm_pass f (sm_pass f c)).prevlevel = c.runlevel ∧
      (sm_pass f (sm_pass f c)).sm.newlevel = -1 ∧
      (sm_pass f (sm_pass f c)).sm.state ≠ SM_RUNLEVEL_CHANGE_STATE := by
    rw [e2, e1]
    simp [case_runlevel_change, calls, List.count_append, List.countP_append, is_runlevel_set,
      hs, hnl]
  have key := sm_step_inv f _ (levels_assigned_kept f _ _ n c.runlevel) _ base
  refine ⟨key.1, key.2.1, key.2.2.1, key.2.2.2.1, key.2.2.2.2.1, ?_⟩
  intro hd
  -- third pass: the poll answers false and the machine parks
  have s2 : (sm_pass f (sm_pass f c)).sm.state = SM_RUNLEVEL_WAIT_STATE := by
    rw [e2]; simp [case_runlevel_change]
  have p2 : (sm_pass f (sm_pass f c)).polls = c.polls := by
    rw [e2, e1]; simp [case_runlevel_change]
  have e3 : sm_pass f (sm_pass f (sm_pass f c)) =
      (service_stop_is_done f (log_state (sm_pass f (sm_pass f c)))).2 := by
    rw [sm_pass_runlevel_wait f _ s2]
    exact case_runlevel_wait_parked f _ (by simpa [p2] using hd)
  have g3 : sm_step f (sm_pass f (sm_pass f c)) = sm_pass f (sm_pass f (sm_pass f c)) :=
    sm_step_stop f _ (by rw [e3]; simp)
  rw [g3, e3]
  simp only [service_stop_is_done_fields, log_state_fields]
  rw [e2]
  simp [case_runlevel_change]

/-- C1 at a concrete context: level 3 running, level 2 requested, a reload
pending, the first stop-done answer false. -/
theorem C1_runlevel_request_accepted_witness :
    (sm_step (fun _ => false)
        ⟨⟨SM_RUNNING_STATE, 2, 1, 0⟩, 3, -1, false, 0, [], []⟩).sm.state
      = SM_RUNLEVEL_WAIT_STATE ∧
    (sm_step (fun _ => false)
        ⟨⟨SM_RUNNING_STATE, 2, 1, 0⟩, 3, -1, false, 0, [], []⟩).runlevel = 2 :=
  have h := C1_runlevel_request_accepted (fun _ => false)
    ⟨⟨SM_RUNNING_STATE, 2, 1, 0⟩, 3, -1, false, 0, [], []⟩ 2 rfl rfl (by decide) (by decide)
  ⟨(h.2.2.2.2.2 rfl).1, h.2.2.1⟩

/-! ## C2: completing a change into level 0 or 6 -/

/-- When every stop-done answer is true, `sm_step` returns in
SM_RUNNING_STATE. -/
theorem sm_step_all_done_running (f : Nat → Bool) (hf : ∀ k, f k = true) (c : Ctx) :
    (sm_step f c).sm.state = SM_RUNNING_STATE := by
  apply sm_step_rel f (fun _ r => r.sm.state = SM_RUNNING_STATE)
  · intro d
    apply sm_pass_elim f d (fun e => e.sm.state = d.sm.state → e.sm.state = SM_RUNNING_STATE)
    · intro h1; simp [case_bootstrap]
    · intro h1 _ _; simp [h1]
    · intro h1 _ _; simp [h1]
    · intro h1 _ _; simp [h1]
    · intro h1 _ _; simp [h1]
    · intro h1; simp [case_runlevel_change, h1]
    · intro _ h2; rw [hf] at h2; exact absurd h2 (by simp)
    · intro _ h2 _; exact (case_runlevel_wait_done f (log_state d) h2).1
    · intro h1; simp [case_reload_change, h1]
    · intro _ h2; rw [hf] at h2; exact absurd h2 (by simp)
    · intro _ _; simp
  · intro _ _ _ h
    exact h

/-- The calls recorded before `sm_step` are still there, in order, when it
returns. -/
theorem sm_pass_trace_grows (f : Nat → Bool) (c : Ctx) :
    ∃ ts, (sm_pass f c).trace = c.trace ++ ts := by
  apply sm_pass_elim f c (fun e => ∃ ts, e.trace = c.trace ++ ts)
  · intro _; exact ⟨_, by simp [case_bootstrap]; rfl⟩
  · intro _ _ _; exact ⟨[], by simp⟩
  · intro _ _ _; exact ⟨[], by simp⟩
  · intro _ _ _; exact ⟨[], by simp⟩
  · intro _ _ _; exact ⟨[], by simp⟩
  · intro _; exact ⟨_, by simp [case_runlevel_change, List.append_assoc]; rfl⟩
  · intro _ _; exact ⟨_, by simp; rfl⟩
  · intro _ h2
    rw [case_runlevel_wait_done_trace f (log_state c) h2]
    exact ⟨_, by simp only [log_state_fields, List.append_assoc]; rfl⟩
  · intro _; exact ⟨_, by simp [case_reload_change, List.append_assoc]; rfl⟩
  · intro _ _; exact ⟨_, by simp; rfl⟩
  · intro _ _; exact ⟨_, by simp [List.append_assoc]; rfl⟩

theorem sm_step_trace_grows (f : Nat → Bool) (c : Ctx) :
    ∃ ts, (sm_step f c).trace = c.trace ++ ts := by
  apply sm_step_rel f (fun c r => ∃ ts, r.trace = c.trace ++ ts)
  · intro d _; exact sm_pass_trace_grows f d
  · intro d r _ ⟨ts, h⟩
    obtain ⟨ts1, h1⟩ := sm_pass_trace_grows f d
    exact ⟨ts1 ++ ts, by rw [h, h1, List.append_assoc]⟩

/-- The description `after_shutdown` is kept by every pass. -/
theorem after_shutdown_kept (f : Nat → Bool) (r0 n0 : Int) (md : shutop_t) (m a : Nat)
    (hmd : (r0 = 0 ∧ md = SHUT_OFF) ∨ (r0 = 6 ∧ md = SHUT_REBOOT)) (d : Ctx)
    (h : after_shutdown r0 n0 md m a d) : after_shutdown r0 n0 md m a (sm_pass f d) := by
  obtain ⟨hm, hph⟩ := h
  simp only [calls] at hm hph
  apply sm_pass_elim f d (after_shutdown r0 n0 md m a) <;> simp only [after_shutdown, calls]
  · intro h1
    simp [h1] at hph
  · intro h1 h2 h3
    rcases hph with ⟨g1, g2, g3, g4, g5⟩ | ⟨g1, _⟩ | ⟨g1, g2, g3, g4, g5⟩
    · exact ⟨by simpa using hm, Or.inl ⟨by simpa using g1, by simpa using g2,
        by simp [h1], by simp, by simpa using g5⟩⟩
    · simp [h1] at g1
    · rw [g4] at h2; omega
  · intro h1 h2 h3
    rcases hph with ⟨g1, g2, g3, g4, g5⟩ | ⟨g1, _⟩ | ⟨g1, g2, g3, g4, g5⟩
    · rcases g4 with g4 | g4
      · refine ⟨by simpa using hm, Or.inr (Or.inl ⟨by simp, by simpa using g4, ?_, ?_,
          by simpa using g5⟩)⟩
        · intro e; apply h3; rw [g1, g4, e]
        · rw [← g4]; exact h2
      · rw [g4] at h2; omega
    · simp [h1] at g1
    · rw [g4] at h2; omega
  · intro h1 h2 h3
    rcases hph with ⟨g1, g2, g3, g4, g5⟩ | ⟨g1, _⟩ | ⟨g1, g2, g3, g4, g5⟩
    · exact ⟨by simpa using hm, Or.inl ⟨by simpa using g1, by simpa using g2,
        by simp, by simpa using g4, by simpa using g5⟩⟩
    · simp [h1] at g1
    · refine ⟨by simpa using hm, Or.inr (Or.inr ⟨by simpa using g1, g2, g3, by simpa using g4,
        Or.inr ⟨by simp, ?_⟩⟩)⟩
      rcases g5 with ⟨g5, _⟩ | ⟨_, g5⟩
      · simp [h1] at g5
      · simpa using g5
  · intro h1 h2 h3
    rcases hph with ⟨g1, g2, g3, g4, g5⟩ | ⟨g1, _⟩ | ⟨g1, g2, g3, g4, g5⟩
    · exact ⟨by simpa using hm, Or.inl ⟨by simpa using g1, by simpa using g2,
        by simp [h1], by simpa using g4, by simpa using g5⟩⟩
    · simp [h1] at g1
    · refine ⟨by simpa using hm, Or.inr (Or.inr ⟨by simpa using g1, g2, g3, by simpa using g4,
        Or.inr ⟨by simp [h1], ?_⟩⟩)⟩
      rcases g5 with ⟨g5, _⟩ | ⟨_, g5⟩
      · simp [h1] at g5
      · simpa using g5
  · intro h1
    rcases hph with ⟨g1, g2, g3, g4, g5⟩ | ⟨g1, g2, g3, g4, g5⟩ | ⟨g1, g2, g3, g4, g5⟩
    · simp [h1] at g3
    · refine ⟨?_, Or.inr (Or.inr ⟨by simp [case_runlevel_change, g2], g3, g4,
        by simp [case_runlevel_change], Or.inl ⟨by simp [case_runlevel_change], ?_⟩⟩)⟩
      · simpa [case_runlevel_change, List.count_append] using hm
      · simpa [case_runlevel_change, List.countP_append, is_do_shutdown] using g5
    · simp [h1] at g5
  · intro h1 h2
    rcases hph with ⟨g1, g2, g3, g4, g5⟩ | ⟨g1, _⟩ | ⟨g1, g2, g3, g4, g5⟩
    · simp [h1] at g3
    · simp [h1] at g1
    · refine ⟨?_, Or.inr (Or.inr ⟨by simpa using g1, g2, g3, by simpa using g4,
        Or.inl ⟨by simp [h1], ?_⟩⟩)⟩
      · simpa [List.count_append] using hm
      · rcases g5 with ⟨_, g5⟩ | ⟨g5, _⟩
        · simpa [List.countP_append, is_do_shutdown] using g5
        · simp [h1] at g5
  · intro h1 h2
    have hf := case_runlevel_wait_done f (log_state d) h2
    have ht := case_runlevel_wait_done_trace f (log_state d) h2
    rcases hph with ⟨g1, g2, g3, g4, g5⟩ | ⟨g1, _⟩ | ⟨g1, g2, g3, g4, g5⟩
    · simp [h1] at g3
    · simp [h1] at g1
    · rcases g5 with ⟨_, g5⟩ | ⟨g5, _⟩
      · simp only [log_state_fields] at hf ht
        refine ⟨?_, Or.inr (Or.inr ⟨by rw [hf.2.2.2.2.1]; exact g1, g2, g3,
          by rw [hf.2.1]; exact g4, Or.inr ⟨Or.inl hf.1, ?_⟩⟩)⟩
        · rw [ht, g1]
          simp only [List.map_append, List.count_append, hm]
          rcases hmd with ⟨e1, e2⟩ | ⟨e1, e2⟩ <;> subst e1 <;> subst e2 <;>
            split_ifs <;> simp_all
        · rw [ht, g1]
          simp only [List.map_append, List.countP_append, g5]
          split_ifs <;> simp_all [is_do_shutdown] <;> omega
      · simp [h1] at g5
  · intro h1
    rcases hph with ⟨g1, g2, g3, g4, g5⟩ | ⟨g1, _⟩ | ⟨g1, g2, g3, g4, g5⟩
    · refine ⟨?_, Or.inl ⟨by simpa [case_reload_change] using g1,
        by simpa [case_reload_change] using g2, by simp [case_reload_change],
        by simpa [case_reload_change] using g4, ?_⟩⟩
      · simpa [case_reload_change, List.count_append] using hm
      · simpa [case_reload_change, List.countP_append, is_do_shutdown] using g5
    · simp [h1] at g1
    · refine ⟨?_, Or.inr (Or.inr ⟨by simpa [case_reload_change] using g1, g2, g3,
        by simpa [case_reload_change] using g4, Or.inr ⟨by simp [case_reload_change], ?_⟩⟩)⟩
      · simpa [case_reload_change, List.count_append] using hm
      · rcases g5 with ⟨g5, _⟩ | ⟨_, g5⟩
        · simp [h1] at g5
        · simpa [case_reload_change, List.countP_append, is_do_shutdown] using g5
  · intro h1 h2
    rcases hph with ⟨g1, g2, g3, g4, g5⟩ | ⟨g1, _⟩ | ⟨g1, g2, g3, g4, g5⟩
    · refine ⟨?_, Or.inl ⟨by simpa using g1, by simpa using g2, by simp [h1],
        by simpa using g4, ?_⟩⟩
      · simpa [List.count_append] using hm
      · simpa [List.countP_append, is_do_shutdown] using g5
    · simp [h1] at g1
    · refine ⟨?_, Or.inr (Or.inr ⟨by simpa using g1, g2, g3,
        by simpa using g4, Or.inr ⟨by simp [h1], ?_⟩⟩)⟩
      · simpa [List.count_append] using hm
      · rcases g5 with ⟨g5, _⟩ | ⟨_, g5⟩
        · simp [h1] at g5
        · simpa [List.countP_append, is_do_shutdown] using g5
  · intro h1 h2
    rcases hph with ⟨g1, g2, g3, g4, g5⟩ | ⟨g1, _⟩ | ⟨g1, g2, g3, g4, g5⟩
    · refine ⟨?_, Or.inl ⟨by simpa using g1, by simpa using g2, by simp,
        by simpa using g4, ?_⟩⟩
      · simpa [List.count_append] using hm
      · simpa [List.countP_append, is_do_shutdown] using g5
    · simp [h1] at g1
    · refine ⟨?_, Or.inr (Or.inr ⟨by simpa using g1, g2, g3,
        by simpa using g4, Or.inr ⟨by simp, ?_⟩⟩)⟩
      · simpa [List.count_append] using hm
      · rcases g5 with ⟨g5, _⟩ | ⟨_, g5⟩
        · simp [h1] at g5
        · simpa [List.countP_append, is_do_shutdown] using g5

/-- C2, as stated, fails: parked in SM_RUNLEVEL_WAIT_STATE for level 0 with a
request for level 6 pending and every stop-done answer true, one call of
sm_step invokes do_shutdown twice, first with SHUT_OFF and then with
SHUT_REBOOT. -/
theorem C2_counterexample :
    (calls (sm_step (fun _ => true)
        ⟨⟨SM_RUNLEVEL_WAIT_STATE, 6, 0, 1⟩, 0, 3, false, 0, [], []⟩)).filter is_do_shutdown
      = [Call.do_shutdown SHUT_OFF, Call.do_shutdown SHUT_REBOOT] := by
  simp [calls, is_do_shutdown, sm_step_unfold, sm_pass, sm_switch, log_state, case_running,
    case_runlevel_change, case_runlevel_wait, update_nologin, start_ttys,
    service_stop_is_done, emit, touch, erase, set_state, set_in_teardown, set_newlevel,
    set_reload, set_prevlevel, set_runlevel]

/-! ## C3: the teardown flag between operations -/

/-- When `sm_step` returns, the machine is running or parked in a wait state. -/
theorem sm_step_returns_settled (f : Nat → Bool) (c : Ctx) :
    (sm_step f c).sm.state = SM_RUNNING_STATE ∨
      (sm_step f c).sm.state = SM_RUNLEVEL_WAIT_STATE ∨
      (sm_step f c).sm.state = SM_RELOAD_WAIT_STATE := by
  apply sm_step_rel f (fun _ r => r.sm.state = SM_RUNNING_STATE ∨
      r.sm.state = SM_RUNLEVEL_WAIT_STATE ∨ r.sm.state = SM_RELOAD_WAIT_STATE)
  · intro d
    apply sm_pass_elim f d (fun e => e.sm.state = d.sm.state → (e.sm.state = SM_RUNNING_STATE ∨
      e.sm.state = SM_RUNLEVEL_WAIT_STATE ∨ e.sm.state = SM_RELOAD_WAIT_STATE))
    · intro h1; simp [case_bootstrap]
    · intro h1 _ _; simp [h1]
    · intro h1 _ _; simp [h1]
    · intro h1 _ _; simp [h1]
    · intro h1 _ _; simp [h1]
    · intro h1; simp [case_runlevel_change, h1]
    · intro h1 _; simp [h1]
    · intro _ h2 _; exact Or.inl (case_runlevel_wait_done f (log_state d) h2).1
    · intro h1; simp [case_reload_change, h1]
    · intro h1 _; simp [h1]
    · intro _ _; simp
  · intro _ _ _ h
    exact h

/-- A property that holds of the starting context and is kept by every
operation holds after every sequence of operations. -/
theorem run_ops_inv (f : Nat → Bool) (P : Ctx → Prop)
    (hop : ∀ d op, P d → P (apply_op f d op)) (ops : List Op) :
    ∀ c, P c → P (run_ops f c ops) := by
  induction ops with
  | nil => intro c h; exact h
  | cons op ops ih => intro c h; exact ih _ (hop c op h)

/-- Inside the loop of `sm_step`: the flag is clear in the bootstrap and
running states and set in the two wait states. -/
theorem teardown_flag_kept (f : Nat → Bool) (d : Ctx)
    (h : ((d.sm.state = SM_BOOTSTRAP_STATE ∨ d.sm.state = SM_RUNNING_STATE) →
        d.sm.in_teardown = 0) ∧
      ((d.sm.state = SM_RUNLEVEL_WAIT_STATE ∨ d.sm.state = SM_RELOAD_WAIT_STATE) →
        d.sm.in_teardown = 1)) :
    (((sm_pass f d).sm.state = SM_BOOTSTRAP_STATE ∨
        (sm_pass f d).sm.state = SM_RUNNING_STATE) → (sm_pass f d).sm.in_teardown = 0) ∧
      (((sm_pass f d).sm.state = SM_RUNLEVEL_WAIT_STATE ∨
        (sm_pass f d).sm.state = SM_RELOAD_WAIT_STATE) → (sm_pass f d).sm.in_teardown = 1) := by
  obtain ⟨ha, hb⟩ := h
  apply sm_pass_elim f d (fun e =>
    ((e.sm.state = SM_BOOTSTRAP_STATE ∨ e.sm.state = SM_RUNNING_STATE) →
        e.sm.in_teardown = 0) ∧
      ((e.sm.state = SM_RUNLEVEL_WAIT_STATE ∨ e.sm.state = SM_RELOAD_WAIT_STATE) →
        e.sm.in_teardown = 1))
  · intro h1; simp [case_bootstrap, ha (Or.inl h1)]
  · intro h1 _ _; simp [h1, ha (Or.inr h1)]
  · intro h1 _ _; simp
  · intro h1 _ _; simp
  · intro h1 _ _; simp [h1, ha (Or.inr h1)]
  · intro h1; simp [case_runlevel_change]
  · intro h1 _; simp [h1, hb (Or.inl h1)]
  · intro _ h2
    have hf := case_runlevel_wait_done f (log_state d) h2
    simp [hf]
  · intro h1; simp [case_reload_change]
  · intro h1 _; simp [h1, hb (Or.inr h1)]
  · intro _ _; simp

/-- C3: after sm_init, whatever sequence of sm_set_runlevel, sm_set_reload and
sm_step operations is applied and whatever the stop-done answers are, the
state observed between operations has in_teardown true exactly when the
machine is in SM_RUNLEVEL_CHANGE_STATE, SM_RUNLEVEL_WAIT_STATE,
SM_RELOAD_CHANGE_STATE or SM_RELOAD_WAIT_STATE; in SM_BOOTSTRAP_STATE and
SM_RUNNING_STATE it is 0. -/
theorem C3_in_teardown_iff_teardown_state (f : Nat → Bool) (c0 : Ctx) (ops : List Op) :
    (sm_is_in_teardown (run_ops f (sm_init c0) ops) ≠ 0 ↔
        teardown_state (run_ops f (sm_init c0) ops).sm.state = true) ∧
      (((run_ops f (sm_init c0) ops).sm.state = SM_BOOTSTRAP_STATE ∨
          (run_ops f (sm_init c0) ops).sm.state = SM_RUNNING_STATE) →
        sm_is_in_teardown (run_ops f (sm_init c0) ops) = 0) := by
  have key : (((run_ops f (sm_init c0) ops).sm.state = SM_BOOTSTRAP_STATE ∨
        (run_ops f (sm_init c0) ops).sm.state = SM_RUNNING_STATE) ∧
        (run_ops f (sm_init c0) ops).sm.in_teardown = 0) ∨
      (((run_ops f (sm_init c0) ops).sm.state = SM_RUNLEVEL_WAIT_STATE ∨
        (run_ops f (sm_init c0) ops).sm.state = SM_RELOAD_WAIT_STATE) ∧
        (run_ops f (sm_init c0) ops).sm.in_teardown = 1) := by
    apply run_ops_inv f (fun d =>
      ((d.sm.state = SM_BOOTSTRAP_STATE ∨ d.sm.state = SM_RUNNING_STATE) ∧
        d.sm.in_teardown = 0) ∨
      ((d.sm.state = SM_RUNLEVEL_WAIT_STATE ∨ d.sm.state = SM_RELOAD_WAIT_STATE) ∧
        d.sm.in_teardown = 1))
    · intro d op hd
      cases op with
      | set_runlevel v => exact hd
      | set_reload => exact hd
      | step =>
        have hloop := sm_step_inv f _ (teardown_flag_kept f) d (by
          rcases hd with ⟨h1, h2⟩ | ⟨h1, h2⟩
          · refine ⟨fun _ => h2, fun h => ?_⟩
            rcases h1 with h1 | h1 <;> rcases h with h | h <;> simp [h1] at h
          · refine ⟨fun h => ?_, fun _ => h2⟩
            rcases h1 with h1 | h1 <;> rcases h with h | h <;> simp [h1] at h)
        show _ ∨ _
        simp only [apply_op]
        rcases sm_step_returns_settled f d with h | h | h
        · exact Or.inl ⟨Or.inr h, hloop.1 (Or.inr h)⟩
        · exact Or.inr ⟨Or.inl h, hloop.2 (Or.inl h)⟩
        · exact Or.inr ⟨Or.inr h, hloop.2 (Or.inr h)⟩
    · exact Or.inl ⟨Or.inl rfl, rfl⟩
  simp only [sm_is_in_teardown]
  rcases key with ⟨h1 | h1, h2⟩ | ⟨h1 | h1, h2⟩ <;> simp [h1, h2, teardown_state]

/-! ## C4: the login marker -/

/-- Inside the loop of `sm_step`: once the run-level-change hooks have been
run (which only the pass completing a run-level change does), the marker
matches the level whenever the machine is not in the middle of a run-level
change. -/
theorem marker_kept (f : Nat → Bool) (d : Ctx)
    (h : Call.plugin_run_hooks HOOK_RUNLEVEL_CHANGE ∈ calls d →
      d.sm.state ≠ SM_RUNLEVEL_CHANGE_STATE → d.sm.state ≠ SM_RUNLEVEL_WAIT_STATE →
      (d.nologin = true ↔ (d.runlevel = 0 ∨ d.runlevel = 1 ∨ d.runlevel = 6))) :
    Call.plugin_run_hooks HOOK_RUNLEVEL_CHANGE ∈ calls (sm_pass f d) →
      (sm_pass f d).sm.state ≠ SM_RUNLEVEL_CHANGE_STATE →
      (sm_pass f d).sm.state ≠ SM_RUNLEVEL_WAIT_STATE →
      ((sm_pass f d).nologin = true ↔
        ((sm_pass f d).runlevel = 0 ∨ (sm_pass f d).runlevel = 1 ∨
          (sm_pass f d).runlevel = 6)) := by
  simp only [calls] at h ⊢
  apply sm_pass_elim f d (fun e =>
    Call.plugin_run_hooks HOOK_RUNLEVEL_CHANGE ∈ e.trace.map call_record.call →
      e.sm.state ≠ SM_RUNLEVEL_CHANGE_STATE → e.sm.state ≠ SM_RUNLEVEL_WAIT_STATE →
      (e.nologin = true ↔ (e.runlevel = 0 ∨ e.runlevel = 1 ∨ e.runlevel = 6)))
  · intro h1 h2 _ _
    have := h (by simpa [case_bootstrap] using h2) (by simp [h1]) (by simp [h1])
    simpa [case_bootstrap] using this
  · intro h1 _ _ h2 _ _
    have := h (by simpa using h2) (by simp [h1]) (by simp [h1])
    simpa using this
  · intro _ _ _ _ h3 _
    simp at h3
  · intro h1 _ _ h2 _ _
    have := h (by simpa using h2) (by simp [h1]) (by simp [h1])
    simpa using this
  · intro h1 _ _ h2 _ _
    have := h (by simpa using h2) (by simp [h1]) (by simp [h1])
    simpa using this
  · intro _ _ _ h3
    simp [case_runlevel_change] at h3
  · intro h1 _ _ _ h3
    simp [h1] at h3
  · intro _ h2 _ _ _
    have hf := case_runlevel_wait_done f (log_state d) h2
    have hg := case_runlevel_wait_done_nologin f (log_state d) h2
    rw [hg, hf.2.2.2.2.1]
    simp only [log_state_fields, decide_eq_true_eq]
    constructor <;> intro h <;> rcases h with h | h | h <;> simp [h]
  · intro h1 h2 _ _
    have := h (by simpa [case_reload_change] using h2) (by simp [h1]) (by simp [h1])
    simpa [case_reload_change] using this
  · intro h1 _ h2 _ _
    have := h (by simpa using h2) (by simp [h1]) (by simp [h1])
    simpa using this
  · intro h1 _ h2 _ _
    have := h (by simpa using h2) (by simp [h1]) (by simp [h1])
    simpa using this

/-- C4: with /etc/nologin a boolean set by touch and cleared by erase, the
pass of sm_step that completes a run-level change (SM_RUNLEVEL_WAIT_STATE,
stop-done true) ends in SM_RUNNING_STATE with the marker present exactly when
runlevel is 0, 1 or 6; and, starting from sm_init with no completed change on
record, after every sequence of operations in which a run-level change has
completed (its hooks have been run), whenever the machine is observed in
SM_RUNNING_STATE the marker is present exactly when runlevel is 0, 1 or 6. -/
theorem C4_nologin_marker (f : Nat → Bool) (c0 : Ctx)
    (h0 : Call.plugin_run_hooks HOOK_RUNLEVEL_CHANGE ∉ calls c0) :
    (∀ c : Ctx, c.sm.state = SM_RUNLEVEL_WAIT_STATE → f c.polls = true →
      (sm_pass f c).sm.state = SM_RUNNING_STATE ∧
      ((sm_pass f c).nologin = true ↔
        ((sm_pass f c).runlevel = 0 ∨ (sm_pass f c).runlevel = 1 ∨
          (sm_pass f c).runlevel = 6))) ∧
    (∀ ops : List Op,
      Call.plugin_run_hooks HOOK_RUNLEVEL_CHANGE ∈ calls (run_ops f (sm_init c0) ops) →
      (run_ops f (sm_init c0) ops).sm.state = SM_RUNNING_STATE →
      ((run_ops f (sm_init c0) ops).nologin = true ↔
        ((run_ops f (sm_init c0) ops).runlevel = 0 ∨ (run_ops f (sm_init c0) ops).runlevel = 1 ∨
          (run_ops f (sm_init c0) ops).runlevel = 6))) := by
  constructor
  · intro c hs hd
    rw [sm_pass_runlevel_wait f c hs]
    have hf := case_runlevel_wait_done f (log_state c) hd
    have hg := case_runlevel_wait_done_nologin f (log_state c) hd
    refine ⟨hf.1, ?_⟩
    rw [hg, hf.2.2.2.2.1]
    simp only [log_state_fields, decide_eq_true_eq]
    constructor <;> intro h <;> rcases h with h | h | h <;> simp [h]
  · intro ops hh hs
    have key := run_ops_inv f (fun d =>
      Call.plugin_run_hooks HOOK_RUNLEVEL_CHANGE ∈ calls d →
      d.sm.state ≠ SM_RUNLEVEL_CHANGE_STATE → d.sm.state ≠ SM_RUNLEVEL_WAIT_STATE →
      (d.nologin = true ↔ (d.runlevel = 0 ∨ d.runlevel = 1 ∨ d.runlevel = 6)))
      (by
        intro d op hd
        cases op with
        | set_runlevel v => exact hd
        | set_reload => exact hd
        | step => exact sm_step_inv f _ (marker_kept f) d hd)
      ops (sm_init c0) (fun h => absurd h h0)
    exact key hh (by simp [hs]) (by simp [hs])

/-- C4 at a concrete run: boot, a request for level 2, every stop-done answer
true; the change completes, the machine is back in SM_RUNNING_STATE and the
marker is absent in level 2. -/
theorem C4_nologin_marker_witness :
    ((run_ops (fun _ => true) (sm_init ⟨⟨SM_BOOTSTRAP_STATE, -1, 0, 0⟩, 0, -1, true, 0, [], []⟩)
        [Op.step, Op.set_runlevel 2, Op.step]).nologin = true ↔
      ((run_ops (fun _ => true) (sm_init ⟨⟨SM_BOOTSTRAP_STATE, -1, 0, 0⟩, 0, -1, true, 0, [], []⟩)
          [Op.step, Op.set_runlevel 2, Op.step]).runlevel = 0 ∨
        (run_ops (fun _ => true) (sm_init ⟨⟨SM_BOOTSTRAP_STATE, -1, 0, 0⟩, 0, -1, true, 0, [], []⟩)
          [Op.step, Op.set_runlevel 2, Op.step]).runlevel = 1 ∨
        (run_ops (fun _ => true) (sm_init ⟨⟨SM_BOOTSTRAP_STATE, -1, 0, 0⟩, 0, -1, true, 0, [], []⟩)
          [Op.step, Op.set_runlevel 2, Op.step]).runlevel = 6)) :=
  (C4_nologin_marker (fun _ => true) ⟨⟨SM_BOOTSTRAP_STATE, -1, 0, 0⟩, 0, -1, true, 0, [], []⟩
    (by simp [calls])).2 [Op.step, Op.set_runlevel 2, Op.step]
    (by simp [calls, run_ops, apply_op, sm_init, sm_set_runlevel, sm_step_unfold, sm_pass,
      sm_switch, log_state, case_bootstrap, case_running, case_runlevel_change,
      case_runlevel_wait, update_nologin, start_ttys, service_stop_is_done, emit, touch, erase,
      set_state, set_in_teardown, set_newlevel, set_reload, set_prevlevel, set_runlevel])
    (by simp [run_ops, apply_op, sm_init, sm_set_runlevel, sm_step_unfold, sm_pass,
      sm_switch, log_state, case_bootstrap, case_running, case_runlevel_change,
      case_runlevel_wait, update_nologin, start_ttys, service_stop_is_done, emit, touch, erase,
      set_state, set_in_teardown, set_newlevel, set_reload, set_prevlevel, set_runlevel])

/-! ## C5: respawning the ttys -/

/-- In SM_RUNNING_STATE with the pending level equal to the current one, or
with no level in [0,9] pending and no reload pending, `sm_step` makes a single
pass, calls no collaborator and changes at most `newlevel`. -/
theorem sm_step_running_quiet (f : Nat → Bool) (c : Ctx)
    (hs : c.sm.state = SM_RUNNING_STATE)
    (hq : (0 ≤ c.sm.newlevel ∧ c.sm.newlevel ≤ 9 ∧ c.runlevel = c.sm.newlevel) ∨
      (¬ (0 ≤ c.sm.newlevel ∧ c.sm.newlevel ≤ 9) ∧ c.sm.reload = 0)) :
    (sm_step f c).sm.state = SM_RUNNING_STATE ∧
      (sm_step f c).sm.newlevel = (if 0 ≤ c.sm.newlevel ∧ c.sm.newlevel ≤ 9 then -1
        else c.sm.newlevel) ∧
      (sm_step f c).sm.reload = c.sm.reload ∧
      (sm_step f c).sm.in_teardown = c.sm.in_teardown ∧
      (sm_step f c).runlevel = c.runlevel ∧ (sm_step f c).prevlevel = c.prevlevel ∧
      (sm_step f c).nologin = c.nologin ∧ (sm_step f c).polls = c.polls ∧
      (sm_step f c).trace = c.trace := by
  rcases hq with ⟨h1, h2, h3⟩ | ⟨h1, h2⟩
  · have e : sm_pass f c = set_newlevel (log_state c) (-1) := by
      rw [sm_pass_running f c hs, case_running_same (log_state c) ⟨h1, h2⟩ h3]
    rw [sm_step_stop f c (by rw [e]; simp), e]
    simp [hs, h1, h2]
  · have e : sm_pass f c = log_state c := by
      rw [sm_pass_running f c hs, case_running_idle (log_state c) h1 h2]
    rw [sm_step_stop f c (by rw [e]; simp), e]
    simp [hs, h1]

/-- C5, as stated, fails: a change from level 3 into level 6 is completed with
prevlevel = 3 > 0 and tty_runlevel is not invoked; the calls of the whole
sm_step are the six listed. -/
theorem C5_counterexample :
    (0 : Int) < (⟨⟨SM_RUNLEVEL_WAIT_STATE, -1, 0, 1⟩, 6, 3, false, 0, [], []⟩ : Ctx).prevlevel ∧
    calls (sm_step (fun _ => true) ⟨⟨SM_RUNLEVEL_WAIT_STATE, -1, 0, 1⟩, 6, 3, false, 0, [], []⟩)
      = [Call.service_stop_is_done true, Call.plugin_run_hooks HOOK_RUNLEVEL_CHANGE,
         Call.service_step_all [SVC_TYPE_ANY], Call.svc_clean_dynamic_service_unregister,
         Call.touch "/etc/nologin", Call.do_shutdown SHUT_REBOOT] := by
  constructor
  · decide
  · simp [calls, sm_step_unfold, sm_pass, sm_switch, log_state, case_running,
      case_runlevel_wait, update_nologin, start_ttys, service_stop_is_done, emit, touch,
      erase, set_state, set_in_teardown, set_newlevel, set_reload]

/-- C5, amended: the pass of sm_step that completes a run-level change
(SM_RUNLEVEL_WAIT_STATE, stop-done true) invokes tty_runlevel, once and with
the new level, if and only if prevlevel > 0 and the new level is neither 0 nor
6; a completion with prevlevel 0 or negative never invokes it.  When moreover
nothing is pending (no other level in [0,9] requested, no reload), these are
the tty_runlevel calls of the whole sm_step. -/
theorem C5_tty_runlevel_iff (f : Nat → Bool) (c : Ctx)
    (hs : c.sm.state = SM_RUNLEVEL_WAIT_STATE) (hd : f c.polls = true) :
    ((0 < c.prevlevel ∧ c.runlevel ≠ 0 ∧ c.runlevel ≠ 6) →
        (calls (sm_pass f c)).countP is_tty_runlevel = (calls c).countP is_tty_runlevel + 1 ∧
        (calls (sm_pass f c)).count (Call.tty_runlevel c.runlevel) =
          (calls c).count (Call.tty_runlevel c.runlevel) + 1) ∧
      (¬ (0 < c.prevlevel ∧ c.runlevel ≠ 0 ∧ c.runlevel ≠ 6) →
        (calls (sm_pass f c)).countP is_tty_runlevel = (calls c).countP is_tty_runlevel) ∧
      (((0 ≤ c.sm.newlevel ∧ c.sm.newlevel ≤ 9 ∧ c.runlevel = c.sm.newlevel) ∨
          (¬ (0 ≤ c.sm.newlevel ∧ c.sm.newlevel ≤ 9) ∧ c.sm.reload = 0)) →
        calls (sm_step f c) = calls (sm_pass f c)) := by
  have e1 : sm_pass f c = case_runlevel_wait f (log_state c) := sm_pass_runlevel_wait f c hs
  have hf := case_runlevel_wait_done f (log_state c) hd
  have ht := case_runlevel_wait_done_trace f (log_state c) hd
  simp only [log_state_fields] at hf ht
  have e0 : (0 = c.runlevel) = (c.runlevel = 0) := propext eq_comm
  have e6 : (6 = c.runlevel) = (c.runlevel = 6) := propext eq_comm
  refine ⟨?_, ?_, ?_⟩
  · rintro ⟨hp, h0, h6⟩
    simp only [calls, e1, ht, e0, e6, List.map_append, List.countP_append, List.count_append]
    by_cases h1 : c.runlevel = 1 <;> simp [h0, h6, h1, hp, is_tty_runlevel]
  · intro hno
    simp only [calls, e1, ht, e0, e6, List.map_append, List.countP_append]
    by_cases h0 : c.runlevel = 0
    · simp [h0, is_tty_runlevel]
    · by_cases h6 : c.runlevel = 6
      · simp [h6, is_tty_runlevel]
      · have hp : ¬ 0 < c.prevlevel := fun hp => hno ⟨hp, h0, h6⟩
        by_cases h1 : c.runlevel = 1 <;> simp [h0, h6, h1, hp, is_tty_runlevel]
  · intro hq
    have g1 : sm_step f c = sm_step f (sm_pass f c) :=
      sm_step_go f c (by rw [e1, hf.1, hs]; simp)
    have hq2 := sm_step_running_quiet f (sm_pass f c) (by rw [e1]; exact hf.1)
      (by rw [e1, hf.2.1, hf.2.2.1, hf.2.2.2.2.1]; exact hq)
    simp only [calls]
    rw [g1, hq2.2.2.2.2.2.2.2.2]

/-- C5 (amended) at a concrete context: level 2 reached from level 3, so
tty_runlevel(2) is invoked once. -/
theorem C5_tty_runlevel_iff_witness :
    (calls (sm_pass (fun _ => true)
      ⟨⟨SM_RUNLEVEL_WAIT_STATE, -1, 0, 1⟩, 2, 3, false, 0, [], []⟩)).count (Call.tty_runlevel 2)
      = 1 :=
  ((C5_tty_runlevel_iff (fun _ => true)
    ⟨⟨SM_RUNLEVEL_WAIT_STATE, -1, 0, 1⟩, 2, 3, false, 0, [], []⟩ rfl rfl).1
    ⟨by decide, by decide, by decide⟩).2

/-! ## C6 and C7: requests that need no transition -/

/-- C6: in SM_RUNNING_STATE with the pending level equal to the current level
(a level in [0,9]), sm_step returns after one pass in SM_RUNNING_STATE with
newlevel = -1; runlevel, prevlevel and in_teardown are unchanged, no
collaborator is called (not even the stop-done poll), and the reload flag is
left as it was, set or not. -/
theorem C6_same_level_absorbed (f : Nat → Bool) (c : Ctx) (lvl r : Int)
    (hs : c.sm.state = SM_RUNNING_STATE) (hl : 0 ≤ lvl ∧ lvl ≤ 9)
    (hnl : c.sm.newlevel = lvl) (hrl : c.runlevel = lvl) (hr : c.sm.reload = r) :
    (sm_step f c).sm.state = SM_RUNNING_STATE ∧ (sm_step f c).sm.newlevel = -1 ∧
      (sm_step f c).runlevel = lvl ∧ (sm_step f c).prevlevel = c.prevlevel ∧
      (sm_step f c).sm.in_teardown = c.sm.in_teardown ∧
      (sm_step f c).trace = c.trace ∧ (sm_step f c).polls = c.polls ∧
      (sm_step f c).nologin = c.nologin ∧
      (sm_step f c).sm.reload = r ∧
      (sm_step f c).visited = c.visited ++ [SM_RUNNING_STATE] := by
  have hn : 0 ≤ c.sm.newlevel ∧ c.sm.newlevel ≤ 9 := by rw [hnl]; exact hl
  have he : c.runlevel = c.sm.newlevel := by rw [hnl, hrl]
  have e : sm_pass f c = set_newlevel (log_state c) (-1) := by
    rw [sm_pass_running f c hs, case_running_same (log_state c) hn he]
  rw [sm_step_stop f c (by rw [e]; simp), e]
  simp [hs, hrl, hr]

/-- C6 at a concrete context: level 3 running, level 3 requested, a reload
pending. -/
theorem C6_same_level_absorbed_witness :
    (sm_step (fun _ => true)
        ⟨⟨SM_RUNNING_STATE, 3, 1, 0⟩, 3, 2, false, 0, [], []⟩).sm.newlevel = -1 ∧
    (sm_step (fun _ => true)
        ⟨⟨SM_RUNNING_STATE, 3, 1, 0⟩, 3, 2, false, 0, [], []⟩).sm.reload = 1 :=
  have h := C6_same_level_absorbed (fun _ => true)
    ⟨⟨SM_RUNNING_STATE, 3, 1, 0⟩, 3, 2, false, 0, [], []⟩ 3 1 rfl (by decide) rfl rfl rfl
  ⟨h.2.1, h.2.2.2.2.2.2.2.2.1⟩

/-- C7: in SM_RUNNING_STATE with newlevel = -1 and reload = 0, sm_step leaves
the machine (state, newlevel, reload, in_teardown), runlevel, prevlevel and the
login marker unchanged and calls no collaborator; a second sm_step gives the
same observable state as the first. -/
theorem C7_stable_state_noop (f : Nat → Bool) (c : Ctx)
    (hs : c.sm.state = SM_RUNNING_STATE) (hnl : c.sm.newlevel = -1)
    (hr : c.sm.reload = 0) :
    ((sm_step f c).sm = c.sm ∧ (sm_step f c).runlevel = c.runlevel ∧
        (sm_step f c).prevlevel = c.prevlevel ∧ (sm_step f c).nologin = c.nologin ∧
        (sm_step f c).trace = c.trace ∧ (sm_step f c).polls = c.polls) ∧
      ((sm_step f (sm_step f c)).sm = (sm_step f c).sm ∧
        (sm_step f (sm_step f c)).runlevel = (sm_step f c).runlevel ∧
        (sm_step f (sm_step f c)).prevlevel = (sm_step f c).prevlevel ∧
        (sm_step f (sm_step f c)).nologin = (sm_step f c).nologin ∧
        (sm_step f (sm_step f c)).trace = (sm_step f c).trace ∧
        (sm_step f (sm_step f c)).polls = (sm_step f c).polls) := by
  have once : ∀ d : Ctx, d.sm.state = SM_RUNNING_STATE → d.sm.newlevel = -1 →
      d.sm.reload = 0 → sm_step f d = log_state d := by
    intro d h1 h2 h3
    have hn : ¬ (0 ≤ d.sm.newlevel ∧ d.sm.newlevel ≤ 9) := by rw [h2]; omega
    have e : sm_pass f d = log_state d := by
      rw [sm_pass_running f d h1, case_running_idle (log_state d) hn h3]
    rw [sm_step_stop f d (by rw [e]; simp), e]
  have e1 := once c hs hnl hr
  have e2 := once (sm_step f c) (by rw [e1]; exact hs) (by rw [e1]; exact hnl)
    (by rw [e1]; exact hr)
  refine ⟨?_, ?_⟩
  · rw [e1]; simp
  · rw [e2]; simp

/-- C7 at a concrete context: level 3 running, nothing pending. -/
theorem C7_stable_state_noop_witness :
    (sm_step (fun _ => true) ⟨⟨SM_RUNNING_STATE, -1, 0, 0⟩, 3, 2, false, 0, [], []⟩).sm
      = ⟨SM_RUNNING_STATE, -1, 0, 0⟩ :=
  (C7_stable_state_noop (fun _ => true) ⟨⟨SM_RUNNING_STATE, -1, 0, 0⟩, 3, 2, false, 0, [], []⟩
    rfl rfl rfl).1.1

/-! ## C8: reload requests -/

/-- A whole reload cycle in one call: from SM_RUNNING_STATE with the reload
flag set, no level in [0,9] pending and the stop-done poll answering true. -/
theorem sm_step_reload_cycle (f : Nat → Bool) (c : Ctx)
    (hs : c.sm.state = SM_RUNNING_STATE)
    (hn : ¬ (0 ≤ c.sm.newlevel ∧ c.sm.newlevel ≤ 9)) (hr : c.sm.reload ≠ 0)
    (hd : f c.polls = true) :
    (sm_step f c).sm.state = SM_RUNNING_STATE ∧ (sm_step f c).sm.newlevel = c.sm.newlevel ∧
      (sm_step f c).sm.reload = 0 ∧ (sm_step f c).sm.in_teardown = 0 ∧
      (sm_step f c).runlevel = c.runlevel ∧ (sm_step f c).prevlevel = c.prevlevel ∧
      (sm_step f c).nologin = c.nologin ∧ (sm_step f c).polls = c.polls + 1 ∧
      (sm_step f c).trace = c.trace ++
        [⟨Call.conf_reload_dynamic, c.sm.in_teardown⟩,
         ⟨Call.cond_reload, 1⟩,
         ⟨Call.service_step_all [SVC_TYPE_SERVICE, SVC_TYPE_INETD], 1⟩,
         ⟨Call.service_stop_is_done true, 1⟩,
         ⟨Call.svc_clean_dynamic_service_unregister, 0⟩,
         ⟨Call.service_step_all [SVC_TYPE_SERVICE, SVC_TYPE_INETD], 0⟩,
         ⟨Call.plugin_run_hooks HOOK_SVC_RECONF, 0⟩,
         ⟨Call.service_step_all [SVC_TYPE_SERVICE, SVC_TYPE_INETD], 0⟩] ∧
      (sm_step f c).visited = c.visited ++
        [SM_RUNNING_STATE, SM_RELOAD_CHANGE_STATE, SM_RELOAD_WAIT_STATE, SM_RUNNING_STATE] := by
  have e1 : sm_pass f c = set_state (set_reload (log_state c) 0) SM_RELOAD_CHANGE_STATE := by
    rw [sm_pass_running f c hs, case_running_reload (log_state c) hn hr]
  have g1 : sm_step f c = sm_step f (sm_pass f c) :=
    sm_step_go f c (by rw [e1, hs]; simp)
  have s1 : (sm_pass f c).sm.state = SM_RELOAD_CHANGE_STATE := by rw [e1]; simp
  have e2 := sm_pass_reload_change f (sm_pass f c) s1
  have g2 : sm_step f (sm_pass f c) = sm_step f (sm_pass f (sm_pass f c)) :=
    sm_step_go f _ (by rw [e2, s1]; simp [case_reload_change])
  have s2 : (sm_pass f (sm_pass f c)).sm.state = SM_RELOAD_WAIT_STATE := by
    rw [e2]; simp [case_reload_change]
  have p2 : (sm_pass f (sm_pass f c)).polls = c.polls := by
    rw [e2, e1]; simp [case_reload_change]
  have hd2 : f (log_state (sm_pass f (sm_pass f c))).polls = true := by
    simpa [p2] using hd
  have e3 := (sm_pass_reload_wait f (sm_pass f (sm_pass f c)) s2).trans
    (case_reload_wait_done f _ hd2)
  have g3 : sm_step f (sm_pass f (sm_pass f c)) =
      sm_step f (sm_pass f (sm_pass f (sm_pass f c))) :=
    sm_step_go f _ (by rw [e3, s2]; simp)
  have s3 : (sm_pass f (sm_pass f (sm_pass f c))).sm.state = SM_RUNNING_STATE := by
    rw [e3]; simp
  have n3 : (sm_pass f (sm_pass f (sm_pass f c))).sm.newlevel = c.sm.newlevel := by
    rw [e3, e2, e1]; simp [case_reload_change]
  have r3 : (sm_pass f (sm_pass f (sm_pass f c))).sm.reload = 0 := by
    rw [e3, e2, e1]; simp [case_reload_change]
  have e4 : sm_pass f (sm_pass f (sm_pass f (sm_pass f c))) =
      log_state (sm_pass f (sm_pass f (sm_pass f c))) := by
    rw [sm_pass_running f _ s3]
    exact case_running_idle _ (by simpa [n3] using hn) (by simpa using r3)
  have g4 : sm_step f (sm_pass f (sm_pass f (sm_pass f c))) =
      sm_pass f (sm_pass f (sm_pass f (sm_pass f c))) :=
    sm_step_stop f _ (by rw [e4]; simp)
  rw [g1, g2, g3, g4, e4, e3, e2, e1]
  simp [case_reload_change, hd, hs]

/-- C8: sm_set_reload is idempotent and changes only the reload flag; after two
back-to-back reload requests in SM_RUNNING_STATE with no level in [0,9]
pending and the stop-done poll answering true, sm_step runs one reload cycle
(conf_reload_dynamic once, cond_reload once) and returns in SM_RUNNING_STATE
with reload = 0; a further sm_step calls no collaborator. -/
theorem C8_reload_requests_collapse (f g : Nat → Bool) (c : Ctx)
    (hs : c.sm.state = SM_RUNNING_STATE)
    (hn : ¬ (0 ≤ c.sm.newlevel ∧ c.sm.newlevel ≤ 9)) (hd : f c.polls = true) :
    (∀ s : Ctx, sm_set_reload (sm_set_reload s) = sm_set_reload s ∧
        (sm_set_reload s).sm.reload = 1 ∧
        (sm_set_reload s).sm.state = s.sm.state ∧
        (sm_set_reload s).sm.newlevel = s.sm.newlevel ∧
        (sm_set_reload s).sm.in_teardown = s.sm.in_teardown ∧
        (sm_set_reload s).runlevel = s.runlevel ∧ (sm_set_reload s).prevlevel = s.prevlevel ∧
        (sm_set_reload s).nologin = s.nologin ∧ (sm_set_reload s).polls = s.polls ∧
        (sm_set_reload s).trace = s.trace ∧ (sm_set_reload s).visited = s.visited) ∧
      (calls (sm_step f (sm_set_reload (sm_set_reload c)))).count Call.conf_reload_dynamic =
        (calls c).count Call.conf_reload_dynamic + 1 ∧
      (calls (sm_step f (sm_set_reload (sm_set_reload c)))).count Call.cond_reload =
        (calls c).count Call.cond_reload + 1 ∧
      (sm_step f (sm_set_reload (sm_set_reload c))).visited.count SM_RELOAD_CHANGE_STATE =
        c.visited.count SM_RELOAD_CHANGE_STATE + 1 ∧
      (sm_step f (sm_set_reload (sm_set_reload c))).sm.state = SM_RUNNING_STATE ∧
      (sm_step f (sm_set_reload (sm_set_reload c))).sm.reload = 0 ∧
      (sm_step g (sm_step f (sm_set_reload (sm_set_reload c)))).trace =
        (sm_step f (sm_set_reload (sm_set_reload c))).trace ∧
      (sm_step g (sm_step f (sm_set_reload (sm_set_reload c)))).sm.state = SM_RUNNING_STATE := by
  refine ⟨fun s => ⟨rfl, rfl, rfl, rfl, rfl, rfl, rfl, rfl, rfl, rfl, rfl⟩, ?_⟩
  have hc := sm_step_reload_cycle f (sm_set_reload (sm_set_reload c)) hs hn
    (by simp [sm_set_reload]) hd
  obtain ⟨c1, c2, c3, c4, c5, c6, c7, c8, c9, c10⟩ := hc
  have hq := sm_step_running_quiet g (sm_step f (sm_set_reload (sm_set_reload c))) c1
    (Or.inr ⟨by rw [c2]; exact hn, c3⟩)
  refine ⟨?_, ?_, ?_, c1, c3, hq.2.2.2.2.2.2.2.2, hq.1⟩
  · simp only [calls, c9, List.map_append, List.count_append]
    simp [sm_set_reload]
  · simp only [calls, c9, List.map_append, List.count_append]
    simp [sm_set_reload]
  · rw [c10]
    simp [sm_set_reload, List.count_append]

/-- C8 at a concrete context: level 3 running, nothing pending, two reload
requests. -/
theorem C8_reload_requests_collapse_witness :
    (calls (sm_step (fun _ => true) (sm_set_reload (sm_set_reload
        ⟨⟨SM_RUNNING_STATE, -1, 0, 0⟩, 3, 2, false, 0, [], []⟩)))).count Call.cond_reload = 1 ∧
    (sm_step (fun _ => true) (sm_set_reload (sm_set_reload
        ⟨⟨SM_RUNNING_STATE, -1, 0, 0⟩, 3, 2, false, 0, [], []⟩))).sm.reload = 0 :=
  have h := C8_reload_requests_collapse (fun _ => true) (fun _ => true)
    ⟨⟨SM_RUNNING_STATE, -1, 0, 0⟩, 3, 2, false, 0, [], []⟩ rfl (by decide) rfl
  ⟨h.2.2.1, h.2.2.2.2.2.1⟩

/-! ## C9: the states in which sm_step returns -/

/-- A pass never takes back a stop-done poll. -/
theorem sm_pass_polls_mono (f : Nat → Bool) (c : Ctx) : c.polls ≤ (sm_pass f c).polls := by
  apply sm_pass_elim f c (fun e => c.polls ≤ e.polls)
  · intro _; simp [case_bootstrap]
  · intro _ _ _; simp
  · intro _ _ _; simp
  · intro _ _ _; simp
  · intro _ _ _; simp
  · intro _; simp [case_runlevel_change]
  · intro _ _; simp
  · intro _ h2
    rw [(case_runlevel_wait_done f (log_state c) h2).2.2.2.2.2.2.1]
    simp
  · intro _; simp [case_reload_change]
  · intro _ _; simp
  · intro _ _; simp

/-- C9: whatever the starting context and the stop-done answers, sm_step
returns in SM_RUNNING_STATE, SM_RUNLEVEL_WAIT_STATE or SM_RELOAD_WAIT_STATE,
never in SM_BOOTSTRAP_STATE, SM_RUNLEVEL_CHANGE_STATE or
SM_RELOAD_CHANGE_STATE; and when it returns in a wait state it has polled
stop-done during the call, the last answer it received was false, and that
poll is its last collaborator call. -/
theorem C9_returns_settled (f : Nat → Bool) (c : Ctx) :
    ((sm_step f c).sm.state = SM_RUNNING_STATE ∨
        (sm_step f c).sm.state = SM_RUNLEVEL_WAIT_STATE ∨
        (sm_step f c).sm.state = SM_RELOAD_WAIT_STATE) ∧
      (sm_step f c).sm.state ≠ SM_BOOTSTRAP_STATE ∧
      (sm_step f c).sm.state ≠ SM_RUNLEVEL_CHANGE_STATE ∧
      (sm_step f c).sm.state ≠ SM_RELOAD_CHANGE_STATE ∧
      (((sm_step f c).sm.state = SM_RUNLEVEL_WAIT_STATE ∨
          (sm_step f c).sm.state = SM_RELOAD_WAIT_STATE) →
        c.polls < (sm_step f c).polls ∧ f ((sm_step f c).polls - 1) = false ∧
        (calls (sm_step f c)).getLast? = some (Call.service_stop_is_done false)) := by
  have hset := sm_step_returns_settled f c
  refine ⟨hset, ?_, ?_, ?_, ?_⟩
  · rcases hset with h | h | h <;> simp [h]
  · rcases hset with h | h | h <;> simp [h]
  · rcases hset with h | h | h <;> simp [h]
  · apply sm_step_rel f (fun c r =>
      (r.sm.state = SM_RUNLEVEL_WAIT_STATE ∨ r.sm.state = SM_RELOAD_WAIT_STATE) →
        c.polls < r.polls ∧ f (r.polls - 1) = false ∧
        (calls r).getLast? = some (Call.service_stop_is_done false))
    · intro d
      apply sm_pass_elim f d (fun e => e.sm.state = d.sm.state →
        (e.sm.state = SM_RUNLEVEL_WAIT_STATE ∨ e.sm.state = SM_RELOAD_WAIT_STATE) →
        d.polls < e.polls ∧ f (e.polls - 1) = false ∧
        (calls e).getLast? = some (Call.service_stop_is_done false))
      · intro h1 _ h3; simp [case_bootstrap] at h3
      · intro h1 _ _ _ h3; simp [h1] at h3
      · intro h1 _ _ _ h3; simp at h3
      · intro h1 _ _ _ h3; simp at h3
      · intro h1 _ _ _ h3; simp [h1] at h3
      · intro h1 h2; simp [case_runlevel_change, h1] at h2
      · intro _ h2 _ _; simp [calls, h2]
      · intro h1 h2 h3
        rw [(case_runlevel_wait_done f (log_state d) h2).1, h1] at h3
        simp at h3
      · intro h1 h2; simp [case_reload_change, h1] at h2
      · intro _ h2 _ _; simp [calls, h2]
      · intro h1 _ h3; simp [h1] at h3
    · intro d r _ ih hw
      have := sm_pass_polls_mono f d
      obtain ⟨i1, i2, i3⟩ := ih hw
      exact ⟨by omega, i2, i3⟩

/-! ## C10: parking in a wait state -/

/-- C10: in SM_RUNLEVEL_WAIT_STATE or SM_RELOAD_WAIT_STATE, whatever newlevel
and reload are, when the stop-done poll answers false sm_step returns after
one pass with state, newlevel, reload, in_teardown, runlevel, prevlevel and the
login marker unchanged, and its only collaborator call is that one poll. -/
theorem C10_parked_wait_changes_nothing (f : Nat → Bool) (c : Ctx)
    (hs : c.sm.state = SM_RUNLEVEL_WAIT_STATE ∨ c.sm.state = SM_RELOAD_WAIT_STATE)
    (hd : f c.polls = false) :
    (sm_step f c).sm = c.sm ∧ (sm_step f c).runlevel = c.runlevel ∧
      (sm_step f c).prevlevel = c.prevlevel ∧ (sm_step f c).nologin = c.nologin ∧
      (sm_step f c).trace = c.trace ++ [⟨Call.service_stop_is_done false, c.sm.in_teardown⟩] ∧
      (sm_step f c).polls = c.polls + 1 ∧
      (sm_step f c).visited = c.visited ++ [c.sm.state] := by
  have e : sm_pass f c = (service_stop_is_done f (log_state c)).2 := by
    rcases hs with hs | hs
    · rw [sm_pass_runlevel_wait f c hs]
      exact case_runlevel_wait_parked f (log_state c) hd
    · rw [sm_pass_reload_wait f c hs]
      exact case_reload_wait_parked f (log_state c) hd
  rw [sm_step_stop f c (by rw [e]; simp), e]
  simp [hd]

/-- C10 at a concrete context: waiting for level 2 with a reload and a request
for level 5 pending, the poll answering false. -/
theorem C10_parked_wait_changes_nothing_witness :
    (sm_step (fun _ => false) ⟨⟨SM_RUNLEVEL_WAIT_STATE, 5, 1, 1⟩, 2, 3, false, 0, [], []⟩).sm
      = ⟨SM_RUNLEVEL_WAIT_STATE, 5, 1, 1⟩ ∧
    (sm_step (fun _ => false) ⟨⟨SM_RUNLEVEL_WAIT_STATE, 5, 1, 1⟩, 2, 3, false, 0, [], []⟩).trace
      = [⟨Call.service_stop_is_done false, 1⟩] :=
  have h := C10_parked_wait_changes_nothing (fun _ => false)
    ⟨⟨SM_RUNLEVEL_WAIT_STATE, 5, 1, 1⟩, 2, 3, false, 0, [], []⟩ (Or.inl rfl) rfl
  ⟨h.1, h.2.2.2.2.1⟩

/-! ## The legs of a call, for the claims that follow a whole call -/

/-- The visited log after a quiet call from SM_RUNNING_STATE: one pass. -/
theorem sm_step_running_quiet_visited (f : Nat → Bool) (c : Ctx)
    (hs : c.sm.state = SM_RUNNING_STATE)
    (hq : (0 ≤ c.sm.newlevel ∧ c.sm.newlevel ≤ 9 ∧ c.runlevel = c.sm.newlevel) ∨
      (¬ (0 ≤ c.sm.newlevel ∧ c.sm.newlevel ≤ 9) ∧ c.sm.reload = 0)) :
    (sm_step f c).visited = c.visited ++ [SM_RUNNING_STATE] := by
  rcases hq with ⟨h1, h2, h3⟩ | ⟨h1, h2⟩
  · have e : sm_pass f c = set_newlevel (log_state c) (-1) := by
      rw [sm_pass_running f c hs, case_running_same (log_state c) ⟨h1, h2⟩ h3]
    rw [sm_step_stop f c (by rw [e]; simp), e]
    simp [hs]
  · have e : sm_pass f c = log_state c := by
      rw [sm_pass_running f c hs, case_running_idle (log_state c) h1 h2]
    rw [sm_step_stop f c (by rw [e]; simp), e]
    simp [hs]

/-- Parked: in a wait state with the poll answering false the call is one
pass whose only effect is the poll. -/
theorem sm_step_wait_parked (f : Nat → Bool) (c : Ctx)
    (hs : c.sm.state = SM_RUNLEVEL_WAIT_STATE ∨ c.sm.state = SM_RELOAD_WAIT_STATE)
    (hd : f c.polls = false) :
    (sm_step f c).sm = c.sm ∧ (sm_step f c).runlevel = c.runlevel ∧
      (sm_step f c).prevlevel = c.prevlevel ∧ (sm_step f c).nologin = c.nologin ∧
      (sm_step f c).polls = c.polls + 1 ∧
      (sm_step f c).trace = c.trace ++ [⟨Call.service_stop_is_done false, c.sm.in_teardown⟩] ∧
      (sm_step f c).visited = c.visited ++ [c.sm.state] := by
  have e : sm_pass f c = (service_stop_is_done f (log_state c)).2 := by
    rcases hs with hs | hs
    · rw [sm_pass_runlevel_wait f c hs]
      exact case_runlevel_wait_parked f (log_state c) hd
    · rw [sm_pass_reload_wait f c hs]
      exact case_reload_wait_parked f (log_state c) hd
  rw [sm_step_stop f c (by rw [e]; simp), e]
  simp [hd]

/-- The first two passes of a run-level change: from SM_RUNNING_STATE with a
level in [0,9] other than the current one pending, the call continues from
SM_RUNLEVEL_WAIT_STATE with the levels assigned. -/
theorem sm_step_enter_change (f : Nat → Bool) (c : Ctx)
    (hs : c.sm.state = SM_RUNNING_STATE)
    (hn : 0 ≤ c.sm.newlevel ∧ c.sm.newlevel ≤ 9) (hne : c.runlevel ≠ c.sm.newlevel) :
    sm_step f c = sm_step f (sm_pass f (sm_pass f c)) ∧
      (sm_pass f c).sm.state = SM_RUNLEVEL_CHANGE_STATE ∧
      (sm_pass f c).sm.reload = c.sm.reload ∧
      (sm_pass f (sm_pass f c)).sm.state = SM_RUNLEVEL_WAIT_STATE ∧
      (sm_pass f (sm_pass f c)).sm.newlevel = -1 ∧
      (sm_pass f (sm_pass f c)).sm.reload = c.sm.reload ∧
      (sm_pass f (sm_pass f c)).sm.in_teardown = 1 ∧
      (sm_pass f (sm_pass f c)).runlevel = c.sm.newlevel ∧
      (sm_pass f (sm_pass f c)).prevlevel = c.runlevel ∧
      (sm_pass f (sm_pass f c)).nologin = c.nologin ∧
      (sm_pass f (sm_pass f c)).polls = c.polls ∧
      (sm_pass f (sm_pass f c)).trace = c.trace ++
        [⟨Call.runlevel_set c.runlevel c.sm.newlevel, c.sm.in_teardown⟩,
         ⟨Call.conf_reload_dynamic, c.sm.in_teardown⟩,
         ⟨Call.service_step_all [SVC_TYPE_ANY], 1⟩] ∧
      (sm_pass f (sm_pass f c)).visited = c.visited ++
        [SM_RUNNING_STATE, SM_RUNLEVEL_CHANGE_STATE] := by
  have e1 : sm_pass f c = set_state (log_state c) SM_RUNLEVEL_CHANGE_STATE := by
    rw [sm_pass_running f c hs, case_running_change (log_state c) hn hne]
  have g1 : sm_step f c = sm_step f (sm_pass f c) :=
    sm_step_go f c (by rw [e1, hs]; simp)
  have s1 : (sm_pass f c).sm.state = SM_RUNLEVEL_CHANGE_STATE := by rw [e1]; simp
  have e2 := sm_pass_runlevel_change f (sm_pass f c) s1
  have g2 : sm_step f (sm_pass f c) = sm_step f (sm_pass f (sm_pass f c)) :=
    sm_step_go f _ (by rw [e2, s1]; simp [case_runlevel_change])
  refine ⟨g1.trans g2, s1, by rw [e1]; simp, ?_⟩
  rw [e2, e1]
  simp [case_runlevel_change, hs]

/-- The pass that completes a run-level change, followed by the rest of the
call. -/
theorem sm_step_runlevel_wait_done (f : Nat → Bool) (c : Ctx)
    (hs : c.sm.state = SM_RUNLEVEL_WAIT_STATE) (hd : f c.polls = true) :
    sm_step f c = sm_step f (sm_pass f c) ∧
      (sm_pass f c).sm.state = SM_RUNNING_STATE ∧
      (sm_pass f c).sm.newlevel = c.sm.newlevel ∧
      (sm_pass f c).sm.reload = c.sm.reload ∧
      (sm_pass f c).sm.in_teardown = 0 ∧
      (sm_pass f c).runlevel = c.runlevel ∧
      (sm_pass f c).prevlevel = c.prevlevel ∧
      (sm_pass f c).polls = c.polls + 1 ∧
      (sm_pass f c).visited = c.visited ++ [SM_RUNLEVEL_WAIT_STATE] ∧
      (sm_pass f c).nologin = decide (c.runlevel = 1 ∨ c.runlevel = 0 ∨ c.runlevel = 6) ∧
      (sm_pass f c).trace =
        c.trace ++
          [⟨Call.service_stop_is_done true, c.sm.in_teardown⟩,
           ⟨Call.plugin_run_hooks HOOK_RUNLEVEL_CHANGE, c.sm.in_teardown⟩,
           ⟨Call.service_step_all [SVC_TYPE_ANY], 0⟩,
           ⟨Call.svc_clean_dynamic_service_unregister, 0⟩,
           ⟨if c.runlevel = 1 ∨ c.runlevel = 0 ∨ c.runlevel = 6 then Call.touch "/etc/nologin"
            else Call.erase "/etc/nologin", 0⟩] ++
          (if 0 = c.runlevel then [⟨Call.do_shutdown SHUT_OFF, 0⟩]
           else if 6 = c.runlevel then [⟨Call.do_shutdown SHUT_REBOOT, 0⟩]
           else if c.prevlevel > 0 then [⟨Call.tty_runlevel c.runlevel, 0⟩]
           else []) := by
  have e1 : sm_pass f c = case_runlevel_wait f (log_state c) := sm_pass_runlevel_wait f c hs
  have hf := case_runlevel_wait_done f (log_state c) hd
  have ht := case_runlevel_wait_done_trace f (log_state c) hd
  have hg := case_runlevel_wait_done_nologin f (log_state c) hd
  simp only [log_state_fields] at hf ht hg
  rw [← e1] at hf ht hg
  refine ⟨sm_step_go f c (by rw [hf.1, hs]; simp), hf.1, hf.2.1, hf.2.2.1, hf.2.2.2.1,
    hf.2.2.2.2.1, hf.2.2.2.2.2.1, hf.2.2.2.2.2.2.1, ?_, hg, ht⟩
  rw [hf.2.2.2.2.2.2.2, hs]

/-- The first two passes of a reload: from SM_RUNNING_STATE with the reload
flag set and no level in [0,9] pending, the call continues from
SM_RELOAD_WAIT_STATE with the flag cleared. -/
theorem sm_step_enter_reload (f : Nat → Bool) (c : Ctx)
    (hs : c.sm.state = SM_RUNNING_STATE)
    (hn : ¬ (0 ≤ c.sm.newlevel ∧ c.sm.newlevel ≤ 9)) (hr : c.sm.reload ≠ 0) :
    sm_step f c = sm_step f (sm_pass f (sm_pass f c)) ∧
      (sm_pass f (sm_pass f c)).sm.state = SM_RELOAD_WAIT_STATE ∧
      (sm_pass f (sm_pass f c)).sm.newlevel = c.sm.newlevel ∧
      (sm_pass f (sm_pass f c)).sm.reload = 0 ∧
      (sm_pass f (sm_pass f c)).sm.in_teardown = 1 ∧
      (sm_pass f (sm_pass f c)).runlevel = c.runlevel ∧
      (sm_pass f (sm_pass f c)).prevlevel = c.prevlevel ∧
      (sm_pass f (sm_pass f c)).nologin = c.nologin ∧
      (sm_pass f (sm_pass f c)).polls = c.polls ∧
      (sm_pass f (sm_pass f c)).trace = c.trace ++
        [⟨Call.conf_reload_dynamic, c.sm.in_teardown⟩,
         ⟨Call.cond_reload, 1⟩,
         ⟨Call.service_step_all [SVC_TYPE_SERVICE, SVC_TYPE_INETD], 1⟩] ∧
      (sm_pass f (sm_pass f c)).visited = c.visited ++
        [SM_RUNNING_STATE, SM_RELOAD_CHANGE_STATE] := by
  have e1 : sm_pass f c = set_state (set_reload (log_state c) 0) SM_RELOAD_CHANGE_STATE := by
    rw [sm_pass_running f c hs, case_running_reload (log_state c) hn hr]
  have g1 : sm_step f c = sm_step f (sm_pass f c) :=
    sm_step_go f c (by rw [e1, hs]; simp)
  have s1 : (sm_pass f c).sm.state = SM_RELOAD_CHANGE_STATE := by rw [e1]; simp
  have e2 := sm_pass_reload_change f (sm_pass f c) s1
  have g2 : sm_step f (sm_pass f c) = sm_step f (sm_pass f (sm_pass f c)) :=
    sm_step_go f _ (by rw [e2, s1]; simp [case_reload_change])
  refine ⟨g1.trans g2, ?_⟩
  rw [e2, e1]
  simp [case_reload_change, hs]

/-- A reload whose poll answers false: the call parks in
SM_RELOAD_WAIT_STATE. -/
theorem sm_step_reload_parked (f : Nat → Bool) (c : Ctx)
    (hs : c.sm.state = SM_RUNNING_STATE)
    (hn : ¬ (0 ≤ c.sm.newlevel ∧ c.sm.newlevel ≤ 9)) (hr : c.sm.reload ≠ 0)
    (hd : f c.polls = false) :
    (sm_step f c).sm.state = SM_RELOAD_WAIT_STATE ∧ (sm_step f c).sm.newlevel = c.sm.newlevel ∧
      (sm_step f c).sm.reload = 0 ∧ (sm_step f c).sm.in_teardown = 1 ∧
      (sm_step f c).runlevel = c.runlevel ∧ (sm_step f c).prevlevel = c.prevlevel ∧
      (sm_step f c).nologin = c.nologin ∧ (sm_step f c).polls = c.polls + 1 ∧
      (sm_step f c).trace = c.trace ++
        [⟨Call.conf_reload_dynamic, c.sm.in_teardown⟩,
         ⟨Call.cond_reload, 1⟩,
         ⟨Call.service_step_all [SVC_TYPE_SERVICE, SVC_TYPE_INETD], 1⟩,
         ⟨Call.service_stop_is_done false, 1⟩] ∧
      (sm_step f c).visited = c.visited ++
        [SM_RUNNING_STATE, SM_RELOAD_CHANGE_STATE, SM_RELOAD_WAIT_STATE] := by
  obtain ⟨g, k1, k2, k3, k4, k5, k6, k7, k8, k9, k10⟩ := sm_step_enter_reload f c hs hn hr
  obtain ⟨p1, p2, p3, p4, p5, p6, p7⟩ :=
    sm_step_wait_parked f (sm_pass f (sm_pass f c)) (Or.inr k1) (by rw [k8]; exact hd)
  rw [g]
  refine ⟨by rw [p1]; exact k1, by rw [p1]; exact k2, by rw [p1]; exact k3,
    by rw [p1]; exact k4, p2.trans k5, p3.trans k6, p4.trans k7, by rw [p5, k8], ?_, ?_⟩
  · rw [p6, k9, k4]; simp
  · rw [p7, k10, k1]; simp

/-! ## C11: a request outside [0,9] -/

/-- C11: in SM_RUNNING_STATE, for every v outside [0,9] and every sequence of
stop-done answers, sm_step after sm_set_runlevel(v) returns with the same
state, reload flag, in_teardown, runlevel, prevlevel, login marker and
collaborator calls as sm_step after sm_set_runlevel(-1), goes through the same
states, and does not go through SM_RUNLEVEL_CHANGE_STATE. -/
theorem C11_out_of_range_request_ignored (f : Nat → Bool) (c : Ctx) (v : Int)
    (hs : c.sm.state = SM_RUNNING_STATE) (hv : ¬ (0 ≤ v ∧ v ≤ 9)) :
    (sm_step f (sm_set_runlevel c v)).sm.state =
        (sm_step f (sm_set_runlevel c (-1))).sm.state ∧
      (sm_step f (sm_set_runlevel c v)).sm.reload =
        (sm_step f (sm_set_runlevel c (-1))).sm.reload ∧
      (sm_step f (sm_set_runlevel c v)).sm.in_teardown =
        (sm_step f (sm_set_runlevel c (-1))).sm.in_teardown ∧
      (sm_step f (sm_set_runlevel c v)).runlevel =
        (sm_step f (sm_set_runlevel c (-1))).runlevel ∧
      (sm_step f (sm_set_runlevel c v)).prevlevel =
        (sm_step f (sm_set_runlevel c (-1))).prevlevel ∧
      (sm_step f (sm_set_runlevel c v)).nologin =
        (sm_step f (sm_set_runlevel c (-1))).nologin ∧
      (sm_step f (sm_set_runlevel c v)).trace =
        (sm_step f (sm_set_runlevel c (-1))).trace ∧
      (sm_step f (sm_set_runlevel c v)).visited =
        (sm_step f (sm_set_runlevel c (-1))).visited ∧
      (sm_step f (sm_set_runlevel c v)).visited.count SM_RUNLEVEL_CHANGE_STATE =
        c.visited.count SM_RUNLEVEL_CHANGE_STATE := by
  have sa : (sm_set_runlevel c v).sm.state = SM_RUNNING_STATE := hs
  have sb : (sm_set_runlevel c (-1)).sm.state = SM_RUNNING_STATE := hs
  have na : ¬ (0 ≤ (sm_set_runlevel c v).sm.newlevel ∧ (sm_set_runlevel c v).sm.newlevel ≤ 9) :=
    hv
  have nb : ¬ (0 ≤ (sm_set_runlevel c (-1)).sm.newlevel ∧
      (sm_set_runlevel c (-1)).sm.newlevel ≤ 9) := by
    show ¬ ((0 : Int) ≤ -1 ∧ (-1 : Int) ≤ 9)
    omega
  by_cases hr : c.sm.reload = 0
  · have qa := sm_step_running_quiet f _ sa (Or.inr ⟨na, hr⟩)
    have qb := sm_step_running_quiet f _ sb (Or.inr ⟨nb, hr⟩)
    have va := sm_step_running_quiet_visited f _ sa (Or.inr ⟨na, hr⟩)
    have vb := sm_step_running_quiet_visited f _ sb (Or.inr ⟨nb, hr⟩)
    obtain ⟨a1, _, a3, a4, a5, a6, a7, _, a9⟩ := qa
    obtain ⟨b1, _, b3, b4, b5, b6, b7, _, b9⟩ := qb
    refine ⟨a1.trans b1.symm, a3.trans b3.symm, a4.trans b4.symm, a5.trans b5.symm,
      a6.trans b6.symm, a7.trans b7.symm, a9.trans b9.symm, va.trans vb.symm, ?_⟩
    rw [va]
    simp [sm_set_runlevel, List.count_append]
  · rcases hd : f c.polls
    · obtain ⟨a1, _, a3, a4, a5, a6, a7, _, a9, a10⟩ := sm_step_reload_parked f _ sa na hr hd
      obtain ⟨b1, _, b3, b4, b5, b6, b7, _, b9, b10⟩ := sm_step_reload_parked f _ sb nb hr hd
      refine ⟨a1.trans b1.symm, a3.trans b3.symm, a4.trans b4.symm, a5.trans b5.symm,
        a6.trans b6.symm, a7.trans b7.symm, a9.trans b9.symm, a10.trans b10.symm, ?_⟩
      rw [a10]
      simp [sm_set_runlevel, List.count_append]
    · obtain ⟨a1, _, a3, a4, a5, a6, a7, _, a9, a10⟩ := sm_step_reload_cycle f _ sa na hr hd
      obtain ⟨b1, _, b3, b4, b5, b6, b7, _, b9, b10⟩ := sm_step_reload_cycle f _ sb nb hr hd
      refine ⟨a1.trans b1.symm, a3.trans b3.symm, a4.trans b4.symm, a5.trans b5.symm,
        a6.trans b6.symm, a7.trans b7.symm, a9.trans b9.symm, a10.trans b10.symm, ?_⟩
      rw [a10]
      simp [sm_set_runlevel, List.count_append]

/-- C11 at a concrete context: level 3 running with a reload pending, the
request 42, the poll answering true. -/
theorem C11_out_of_range_request_ignored_witness :
    (sm_step (fun _ => true) (sm_set_runlevel
        ⟨⟨SM_RUNNING_STATE, -1, 1, 0⟩, 3, 2, false, 0, [], []⟩ 42)).trace =
      (sm_step (fun _ => true) (sm_set_runlevel
        ⟨⟨SM_RUNNING_STATE, -1, 1, 0⟩, 3, 2, false, 0, [], []⟩ (-1))).trace :=
  (C11_out_of_range_request_ignored (fun _ => true)
    ⟨⟨SM_RUNNING_STATE, -1, 1, 0⟩, 3, 2, false, 0, [], []⟩ 42 rfl (by decide)).2.2.2.2.2.2.1

/-! ## C12: the first call after sm_init -/

/-- From SM_BOOTSTRAP_STATE the call continues from SM_RUNNING_STATE after
one pass that steps the run, task and service types. -/
theorem sm_step_bootstrap (f : Nat → Bool) (c : Ctx) (hs : c.sm.state = SM_BOOTSTRAP_STATE) :
    sm_step f c = sm_step f (sm_pass f c) ∧
      (sm_pass f c).sm.state = SM_RUNNING_STATE ∧
      (sm_pass f c).sm.newlevel = c.sm.newlevel ∧
      (sm_pass f c).sm.reload = c.sm.reload ∧
      (sm_pass f c).sm.in_teardown = c.sm.in_teardown ∧
      (sm_pass f c).runlevel = c.runlevel ∧ (sm_pass f c).prevlevel = c.prevlevel ∧
      (sm_pass f c).nologin = c.nologin ∧ (sm_pass f c).polls = c.polls ∧
      (sm_pass f c).trace = c.trace ++
        [⟨Call.service_step_all [SVC_TYPE_RUN, SVC_TYPE_TASK, SVC_TYPE_SERVICE],
          c.sm.in_teardown⟩] ∧
      (sm_pass f c).visited = c.visited ++ [SM_BOOTSTRAP_STATE] := by
  have e1 := sm_pass_bootstrap f c hs
  refine ⟨sm_step_go f c (by rw [e1, hs]; simp [case_bootstrap]), ?_⟩
  rw [e1]
  simp [case_bootstrap, hs]

/-- C12: right after sm_init, with no request issued, sm_step returns in
SM_RUNNING_STATE with newlevel = -1, reload = 0, in_teardown = 0, runlevel and
prevlevel unchanged, having made exactly one collaborator call,
service_step_all(SVC_TYPE_RUN | SVC_TYPE_TASK | SVC_TYPE_SERVICE); and from
every context in SM_BOOTSTRAP_STATE that call is the first collaborator call
of sm_step. -/
theorem C12_first_step_after_init (f : Nat → Bool) (c0 : Ctx) :
    ((sm_step f (sm_init c0)).sm = ⟨SM_RUNNING_STATE, -1, 0, 0⟩ ∧
        (sm_step f (sm_init c0)).runlevel = c0.runlevel ∧
        (sm_step f (sm_init c0)).prevlevel = c0.prevlevel ∧
        (sm_step f (sm_init c0)).polls = c0.polls ∧
        (sm_step f (sm_init c0)).trace = c0.trace ++
          [⟨Call.service_step_all [SVC_TYPE_RUN, SVC_TYPE_TASK, SVC_TYPE_SERVICE], 0⟩]) ∧
      (∀ c : Ctx, c.sm.state = SM_BOOTSTRAP_STATE →
        ∃ ts, (sm_step f c).trace = c.trace ++
          ⟨Call.service_step_all [SVC_TYPE_RUN, SVC_TYPE_TASK, SVC_TYPE_SERVICE],
            c.sm.in_teardown⟩ :: ts) := by
  constructor
  · obtain ⟨g, k1, k2, k3, k4, k5, k6, k7, k8, k9, k10⟩ :=
      sm_step_bootstrap f (sm_init c0) rfl
    have hq := sm_step_running_quiet f (sm_pass f (sm_init c0)) k1
      (Or.inr ⟨by rw [k2]; show ¬ ((0 : Int) ≤ -1 ∧ (-1 : Int) ≤ 9); omega, by rw [k3]; rfl⟩)
    obtain ⟨q1, q2, q3, q4, q5, q6, q7, q8, q9⟩ := hq
    rw [g]
    refine ⟨?_, q5.trans k5, q6.trans k6, q8.trans k8, q9.trans k9⟩
    have hnl : (sm_step f (sm_pass f (sm_init c0))).sm.newlevel = -1 := by
      rw [q2, k2]
      show (if (0 : Int) ≤ -1 ∧ (-1 : Int) ≤ 9 then (-1 : Int) else -1) = -1
      simp
    have hrl : (sm_step f (sm_pass f (sm_init c0))).sm.reload = 0 := by rw [q3, k3]; rfl
    have htd : (sm_step f (sm_pass f (sm_init c0))).sm.in_teardown = 0 := by rw [q4, k4]; rfl
    cases hsm : (sm_step f (sm_pass f (sm_init c0))).sm with
    | mk st nl rl td =>
      rw [hsm] at q1 hnl hrl htd
      simp only at q1 hnl hrl htd
      rw [q1, hnl, hrl, htd]
  · intro c hs
    obtain ⟨g, _, _, _, _, _, _, _, _, k9, _⟩ := sm_step_bootstrap f c hs
    obtain ⟨ts, hts⟩ := sm_step_trace_grows f (sm_pass f c)
    exact ⟨ts, by rw [g, hts, k9, List.append_assoc]; rfl⟩

/-! ## C13: run-level requests are last-write-wins -/

/-- A pass that starts outside SM_RUNLEVEL_CHANGE_STATE with no level pending
assigns no level, calls no runlevel_set and does not lead to
SM_RUNLEVEL_CHANGE_STATE. -/
theorem sm_pass_no_assignment (f : Nat → Bool) (d : Ctx) (hnl : d.sm.newlevel = -1)
    (hs : d.sm.state ≠ SM_RUNLEVEL_CHANGE_STATE) :
    (sm_pass f d).sm.newlevel = -1 ∧ (sm_pass f d).sm.state ≠ SM_RUNLEVEL_CHANGE_STATE ∧
      (sm_pass f d).runlevel = d.runlevel ∧ (sm_pass f d).prevlevel = d.prevlevel ∧
      ∃ ts, (sm_pass f d).trace = d.trace ++ ts ∧
        (ts.map call_record.call).filter is_runlevel_set = [] := by
  apply sm_pass_elim f d (fun e => e.sm.newlevel = -1 ∧
      e.sm.state ≠ SM_RUNLEVEL_CHANGE_STATE ∧ e.runlevel = d.runlevel ∧
      e.prevlevel = d.prevlevel ∧
      ∃ ts, e.trace = d.trace ++ ts ∧ (ts.map call_record.call).filter is_runlevel_set = [])
  · intro _
    exact ⟨by simpa [case_bootstrap] using hnl, by simp [case_bootstrap],
      by simp [case_bootstrap], by simp [case_bootstrap],
      ⟨_, by simp [case_bootstrap]; rfl, by simp [is_runlevel_set]⟩⟩
  · intro h1 _ _
    exact ⟨by simp, by simp [h1], by simp, by simp, ⟨[], by simp, rfl⟩⟩
  · intro _ h2 _
    rw [hnl] at h2; omega
  · intro _ _ _
    exact ⟨by simpa using hnl, by simp, by simp, by simp, ⟨[], by simp, rfl⟩⟩
  · intro h1 _ _
    exact ⟨by simpa using hnl, by simp [h1], by simp, by simp, ⟨[], by simp, rfl⟩⟩
  · intro h1
    exact absurd h1 hs
  · intro h1 _
    exact ⟨by simpa using hnl, by simp [h1], by simp, by simp,
      ⟨_, by simp; rfl, by simp [is_runlevel_set]⟩⟩
  · intro _ h2
    have hf := case_runlevel_wait_done f (log_state d) h2
    have ht := case_runlevel_wait_done_trace f (log_state d) h2
    simp only [log_state_fields] at hf ht
    refine ⟨by rw [hf.2.1]; exact hnl, by rw [hf.1]; simp, hf.2.2.2.2.1, hf.2.2.2.2.2.1,
      ⟨_, by rw [ht, List.append_assoc], ?_⟩⟩
    simp only [List.map_append, List.filter_append]
    split_ifs <;> simp [is_runlevel_set]
  · intro _
    exact ⟨by simpa [case_reload_change] using hnl, by simp [case_reload_change],
      by simp [case_reload_change], by simp [case_reload_change],
      ⟨_, by simp [case_reload_change, List.append_assoc]; rfl, by simp [is_runlevel_set]⟩⟩
  · intro h1 _
    exact ⟨by simpa using hnl, by simp [h1], by simp, by simp,
      ⟨_, by simp; rfl, by simp [is_runlevel_set]⟩⟩
  · intro _ _
    exact ⟨by simpa using hnl, by simp, by simp, by simp,
      ⟨_, by simp [List.append_assoc]; rfl, by simp [is_runlevel_set]⟩⟩

/-- From a context outside SM_RUNLEVEL_CHANGE_STATE with no level pending, the
rest of the call assigns no level: runlevel and prevlevel are kept, no
runlevel_set is called and SM_RUNLEVEL_CHANGE_STATE is not visited. -/
theorem sm_step_no_assignment (f : Nat → Bool) (c : Ctx) (hnl : c.sm.newlevel = -1)
    (hs : c.sm.state ≠ SM_RUNLEVEL_CHANGE_STATE) :
    (sm_step f c).sm.newlevel = -1 ∧
      (sm_step f c).runlevel = c.runlevel ∧ (sm_step f c).prevlevel = c.prevlevel ∧
      (sm_step f c).visited.count SM_RUNLEVEL_CHANGE_STATE =
        c.visited.count SM_RUNLEVEL_CHANGE_STATE ∧
      ∃ ts, (sm_step f c).trace = c.trace ++ ts ∧
        (ts.map call_record.call).filter is_runlevel_set = [] := by
  have key := sm_step_rel f (fun c r => c.sm.newlevel = -1 →
      c.sm.state ≠ SM_RUNLEVEL_CHANGE_STATE →
      r.sm.newlevel = -1 ∧ r.runlevel = c.runlevel ∧ r.prevlevel = c.prevlevel ∧
      r.visited.count SM_RUNLEVEL_CHANGE_STATE = c.visited.count SM_RUNLEVEL_CHANGE_STATE ∧
      ∃ ts, r.trace = c.trace ++ ts ∧ (ts.map call_record.call).filter is_runlevel_set = [])
    (by
      intro d _ h1 h2
      obtain ⟨p1, _, p3, p4, p5⟩ := sm_pass_no_assignment f d h1 h2
      refine ⟨p1, p3, p4, ?_, p5⟩
      have hz : List.count SM_RUNLEVEL_CHANGE_STATE [d.sm.state] = 0 :=
        List.count_eq_zero.mpr (by simpa using Ne.symm h2)
      rw [sm_pass_visited, List.count_append, hz]
      rfl)
    (by
      intro d r _ ih h1 h2
      obtain ⟨p1, p2, p3, p4, ts1, p5, p6⟩ := sm_pass_no_assignment f d h1 h2
      obtain ⟨i1, i2, i3, i4, ts2, i5, i6⟩ := ih p1 p2
      refine ⟨i1, i2.trans p3, i3.trans p4, ?_, ts1 ++ ts2, ?_, ?_⟩
      · have hz : List.count SM_RUNLEVEL_CHANGE_STATE [d.sm.state] = 0 :=
          List.count_eq_zero.mpr (by simpa using Ne.symm h2)
        rw [i4, sm_pass_visited, List.count_append, hz]
        rfl
      · rw [i5, p5, List.append_assoc]
      · rw [List.map_append, List.filter_append, p6, i6]
        rfl)
    c
  exact key hnl hs

/-- C13: sm_set_runlevel overwrites the pending level and changes nothing
else, so of two requests the last one wins.  When, parked in
SM_RUNLEVEL_WAIT_STATE for level a, requests for b and then for n (n in [0,9],
n other than a) are stored: a call whose poll answers false leaves n pending
and the level at a; the call whose poll answers true runs the hooks that
complete the change to a, then goes through SM_RUNLEVEL_CHANGE_STATE once and
returns with runlevel = n, prevlevel = a and newlevel = -1, its only
runlevel_set call being runlevel_set(a, n): b is never made the level. -/
theorem C13_last_request_wins (f g : Nat → Bool) (s : Ctx) (a b n : Int)
    (hs : s.sm.state = SM_RUNLEVEL_WAIT_STATE) (hrl : s.runlevel = a)
    (hn : 0 ≤ n ∧ n ≤ 9) (hne : n ≠ a) (hd : f s.polls = true) (hg : g s.polls = false) :
    (∀ (t : Ctx) (x y : Int),
        sm_set_runlevel (sm_set_runlevel t x) y = sm_set_runlevel t y ∧
        (sm_set_runlevel t x).sm.newlevel = x ∧
        (sm_set_runlevel t x).sm.state = t.sm.state ∧
        (sm_set_runlevel t x).sm.reload = t.sm.reload ∧
        (sm_set_runlevel t x).sm.in_teardown = t.sm.in_teardown ∧
        (sm_set_runlevel t x).runlevel = t.runlevel ∧
        (sm_set_runlevel t x).prevlevel = t.prevlevel ∧
        (sm_set_runlevel t x).nologin = t.nologin ∧ (sm_set_runlevel t x).polls = t.polls ∧
        (sm_set_runlevel t x).trace = t.trace ∧ (sm_set_runlevel t x).visited = t.visited) ∧
      ((sm_step g (sm_set_runlevel (sm_set_runlevel s b) n)).sm.state
          = SM_RUNLEVEL_WAIT_STATE ∧
        (sm_step g (sm_set_runlevel (sm_set_runlevel s b) n)).sm.newlevel = n ∧
        (sm_step g (sm_set_runlevel (sm_set_runlevel s b) n)).runlevel = a) ∧
      ((sm_step f (sm_set_runlevel (sm_set_runlevel s b) n)).runlevel = n ∧
        (sm_step f (sm_set_runlevel (sm_set_runlevel s b) n)).prevlevel = a ∧
        (sm_step f (sm_set_runlevel (sm_set_runlevel s b) n)).sm.newlevel = -1 ∧
        (sm_step f (sm_set_runlevel (sm_set_runlevel s b) n)).visited.count
            SM_RUNLEVEL_CHANGE_STATE = s.visited.count SM_RUNLEVEL_CHANGE_STATE + 1 ∧
        ∃ ts, (sm_step f (sm_set_runlevel (sm_set_runlevel s b) n)).trace = s.trace ++ ts ∧
          (ts.map call_record.call).filter is_runlevel_set = [Call.runlevel_set a n] ∧
          ⟨Call.plugin_run_hooks HOOK_RUNLEVEL_CHANGE, s.sm.in_teardown⟩ ∈ ts) := by
  refine ⟨fun t x y => ⟨rfl, rfl, rfl, rfl, rfl, rfl, rfl, rfl, rfl, rfl, rfl⟩, ?_, ?_⟩
  · obtain ⟨p1, p2, _⟩ := sm_step_wait_parked g (sm_set_runlevel (sm_set_runlevel s b) n)
      (Or.inl hs) hg
    rw [p1, p2]
    exact ⟨hs, rfl, hrl⟩
  · obtain ⟨g1, k1, k2, k3, k4, k5, k6, k7, k8, k9, k10⟩ :=
      sm_step_runlevel_wait_done f (sm_set_runlevel (sm_set_runlevel s b) n) hs hd
    have k2n : (sm_pass f (sm_set_runlevel (sm_set_runlevel s b) n)).sm.newlevel = n := k2
    have k5a : (sm_pass f (sm_set_runlevel (sm_set_runlevel s b) n)).runlevel = a :=
      k5.trans hrl
    obtain ⟨g2, _, _, m1, m2, m3, m4, m5, m6, m7, m8, m9, m10⟩ :=
      sm_step_enter_change f (sm_pass f (sm_set_runlevel (sm_set_runlevel s b) n)) k1
        (by rw [k2n]; exact hn) (by rw [k2n, k5a]; exact fun e => hne e.symm)
    obtain ⟨q1, q2, q3, q4, ts, q5, q6⟩ := sm_step_no_assignment f _ m2 (by rw [m1]; simp)
    rw [g1, g2]
    refine ⟨by rw [q2, m5, k2n], by rw [q3, m6, k5a], q1, ?_, ?_⟩
    · rw [q4, m10, k8]
      show List.count SM_RUNLEVEL_CHANGE_STATE
        (s.visited ++ [SM_RUNLEVEL_WAIT_STATE] ++ [SM_RUNNING_STATE, SM_RUNLEVEL_CHANGE_STATE])
        = _
      simp [List.count_append]
    · have hT1 : ∃ T1, (sm_pass f (sm_set_runlevel (sm_set_runlevel s b) n)).trace
          = s.trace ++ T1 ∧ (T1.map call_record.call).filter is_runlevel_set = [] ∧
          ⟨Call.plugin_run_hooks HOOK_RUNLEVEL_CHANGE, s.sm.in_teardown⟩ ∈ T1 :=
        ⟨_, by rw [k10, List.append_assoc]; rfl,
          by
            simp only [List.map_append, List.filter_append]
            split_ifs <;> simp [is_runlevel_set],
          by simp [sm_set_runlevel]⟩
      obtain ⟨T1, t1, t2, t3⟩ := hT1
      rw [k2n, k5a] at m9
      refine ⟨_, by rw [q5, m9, t1]; simp only [List.append_assoc]; rfl, ?_, ?_⟩
      · simp only [List.map_append, List.filter_append, q6, t2]
        simp [is_runlevel_set]
      · exact List.mem_append_left _ t3

/-- C13 at a concrete context: waiting for level 2, requests for 5 and then
for 4, every poll answering true (the other oracle answering false). -/
theorem C13_last_request_wins_witness :
    (sm_step (fun _ => true) (sm_set_runlevel (sm_set_runlevel
        ⟨⟨SM_RUNLEVEL_WAIT_STATE, -1, 0, 1⟩, 2, 3, false, 0, [], []⟩ 5) 4)).runlevel = 4 ∧
    (sm_step (fun _ => true) (sm_set_runlevel (sm_set_runlevel
        ⟨⟨SM_RUNLEVEL_WAIT_STATE, -1, 0, 1⟩, 2, 3, false, 0, [], []⟩ 5) 4)).prevlevel = 2 :=
  have h := C13_last_request_wins (fun _ => true) (fun _ => false)
    ⟨⟨SM_RUNLEVEL_WAIT_STATE, -1, 0, 1⟩, 2, 3, false, 0, [], []⟩ 2 5 4 rfl rfl
    (by decide) (by decide) rfl rfl
  ⟨h.2.2.1, h.2.2.2.1⟩

/-! ## C14: the active level stays in [0,9] -/

/-- Inside the loop of `sm_step`: the level is in [0,9], and so is the pending
level whenever the machine is about to assign it. -/
theorem level_range_kept (f : Nat → Bool) (d : Ctx)
    (h : (0 ≤ d.runlevel ∧ d.runlevel ≤ 9) ∧
      (d.sm.state = SM_RUNLEVEL_CHANGE_STATE → 0 ≤ d.sm.newlevel ∧ d.sm.newlevel ≤ 9)) :
    (0 ≤ (sm_pass f d).runlevel ∧ (sm_pass f d).runlevel ≤ 9) ∧
      ((sm_pass f d).sm.state = SM_RUNLEVEL_CHANGE_STATE →
        0 ≤ (sm_pass f d).sm.newlevel ∧ (sm_pass f d).sm.newlevel ≤ 9) := by
  obtain ⟨hr, hc⟩ := h
  apply sm_pass_elim f d (fun e => (0 ≤ e.runlevel ∧ e.runlevel ≤ 9) ∧
      (e.sm.state = SM_RUNLEVEL_CHANGE_STATE → 0 ≤ e.sm.newlevel ∧ e.sm.newlevel ≤ 9))
  · intro _; exact ⟨by simpa [case_bootstrap] using hr, by simp [case_bootstrap]⟩
  · intro h1 _ _; exact ⟨by simpa using hr, by simp [h1]⟩
  · intro _ h2 _; exact ⟨by simpa using hr, fun _ => by simpa using h2⟩
  · intro _ _ _; exact ⟨by simpa using hr, by simp⟩
  · intro h1 _ _; exact ⟨by simpa using hr, by simp [h1]⟩
  · intro h1; exact ⟨by simpa [case_runlevel_change] using hc h1, by simp [case_runlevel_change]⟩
  · intro h1 _; exact ⟨by simpa using hr, by simp [h1]⟩
  · intro _ h2
    have hf := case_runlevel_wait_done f (log_state d) h2
    simp only [log_state_fields] at hf
    exact ⟨by rw [hf.2.2.2.2.1]; exact hr, by rw [hf.1]; simp⟩
  · intro _; exact ⟨by simpa [case_reload_change] using hr, by simp [case_reload_change]⟩
  · intro h1 _; exact ⟨by simpa using hr, by simp [h1]⟩
  · intro _ _; exact ⟨by simpa using hr, by simp⟩

/-- C14: if runlevel is in [0,9] when sm_init is called, it is in [0,9] after
every sequence of sm_step, sm_set_reload and sm_set_runlevel(v) operations,
for arbitrary integers v and arbitrary stop-done answers. -/
theorem C14_runlevel_stays_in_range (f : Nat → Bool) (c0 : Ctx) (ops : List Op)
    (h : 0 ≤ c0.runlevel ∧ c0.runlevel ≤ 9) :
    0 ≤ (run_ops f (sm_init c0) ops).runlevel ∧ (run_ops f (sm_init c0) ops).runlevel ≤ 9 := by
  have key := run_ops_inv f (fun d => (0 ≤ d.runlevel ∧ d.runlevel ≤ 9) ∧
      d.sm.state ≠ SM_RUNLEVEL_CHANGE_STATE)
    (by
      intro d op hd
      cases op with
      | set_runlevel v => exact hd
      | set_reload => exact hd
      | step =>
        have hloop := sm_step_inv f _ (level_range_kept f) d ⟨hd.1, fun e => absurd e hd.2⟩
        refine ⟨hloop.1, ?_⟩
        show (sm_step f d).sm.state ≠ SM_RUNLEVEL_CHANGE_STATE
        rcases sm_step_returns_settled f d with e | e | e <;> simp [e])
    ops (sm_init c0) ⟨h, by simp [sm_init]⟩
  exact key.1

/-- C14 at a concrete run: from level 3, the requests 42 and -7 stored around
a call, then a request for 5 served with every poll answering true. -/
theorem C14_runlevel_stays_in_range_witness :
    0 ≤ (run_ops (fun _ => true)
        (sm_init ⟨⟨SM_BOOTSTRAP_STATE, -1, 0, 0⟩, 3, -1, false, 0, [], []⟩)
        [Op.set_runlevel 42, Op.step, Op.set_runlevel (-7), Op.set_runlevel 5,
          Op.step]).runlevel ∧
    (run_ops (fun _ => true)
        (sm_init ⟨⟨SM_BOOTSTRAP_STATE, -1, 0, 0⟩, 3, -1, false, 0, [], []⟩)
        [Op.set_runlevel 42, Op.step, Op.set_runlevel (-7), Op.set_runlevel 5,
          Op.step]).runlevel ≤ 9 :=
  C14_runlevel_stays_in_range (fun _ => true)
    ⟨⟨SM_BOOTSTRAP_STATE, -1, 0, 0⟩, 3, -1, false, 0, [], []⟩
    [Op.set_runlevel 42, Op.step, Op.set_runlevel (-7), Op.set_runlevel 5, Op.step]
    (by decide)

/-! ## C15: sm_init and sm_is_in_teardown -/

/-- C15: whatever the machine held before, sm_init leaves it with state
SM_BOOTSTRAP_STATE, newlevel = -1, reload = 0 and in_teardown = 0 and touches
nothing else, so sm_is_in_teardown answers 0 right after it; sm_is_in_teardown
is the value of the in_teardown field (a pure read: the model gives it no
context to change). -/
theorem C15_init_and_teardown_query (c : Ctx) :
    (sm_init c).sm.state = SM_BOOTSTRAP_STATE ∧ (sm_init c).sm.newlevel = -1 ∧
      (sm_init c).sm.reload = 0 ∧ (sm_init c).sm.in_teardown = 0 ∧
      (sm_init c).runlevel = c.runlevel ∧ (sm_init c).prevlevel = c.prevlevel ∧
      (sm_init c).nologin = c.nologin ∧ (sm_init c).polls = c.polls ∧
      (sm_init c).trace = c.trace ∧ (sm_init c).visited = c.visited ∧
      sm_is_in_teardown (sm_init c) = 0 ∧
      sm_is_in_teardown c = c.sm.in_teardown :=
  ⟨rfl, rfl, rfl, rfl, rfl, rfl, rfl, rfl, rfl, rfl, rfl, rfl⟩

/-! ## C16 and C17: the two full cycles -/

/-- C16: in SM_RUNNING_STATE with the reload flag set and no level in [0,9]
pending, when the stop-done poll answers true sm_step makes exactly the calls
conf_reload_dynamic, cond_reload, service_step_all(SERVICE | INETD),
service_stop_is_done, svc_clean_dynamic(service_unregister),
service_step_all(SERVICE | INETD), plugin_run_hooks(HOOK_SVC_RECONF),
service_step_all(SERVICE | INETD), in that order; in_teardown is 1 during the
first service_step_all and 0 during the hooks and the last two
service_step_all; and it returns in SM_RUNNING_STATE with reload = 0,
in_teardown = 0 and runlevel and prevlevel unchanged. -/
theorem C16_full_reload_cycle (f : Nat → Bool) (c : Ctx)
    (hs : c.sm.state = SM_RUNNING_STATE)
    (hn : ¬ (0 ≤ c.sm.newlevel ∧ c.sm.newlevel ≤ 9)) (hr : c.sm.reload ≠ 0)
    (hd : f c.polls = true) :
    (sm_step f c).trace = c.trace ++
        [⟨Call.conf_reload_dynamic, c.sm.in_teardown⟩,
         ⟨Call.cond_reload, 1⟩,
         ⟨Call.service_step_all [SVC_TYPE_SERVICE, SVC_TYPE_INETD], 1⟩,
         ⟨Call.service_stop_is_done true, 1⟩,
         ⟨Call.svc_clean_dynamic_service_unregister, 0⟩,
         ⟨Call.service_step_all [SVC_TYPE_SERVICE, SVC_TYPE_INETD], 0⟩,
         ⟨Call.plugin_run_hooks HOOK_SVC_RECONF, 0⟩,
         ⟨Call.service_step_all [SVC_TYPE_SERVICE, SVC_TYPE_INETD], 0⟩] ∧
      (sm_step f c).sm.state = SM_RUNNING_STATE ∧ (sm_step f c).sm.reload = 0 ∧
      (sm_step f c).sm.in_teardown = 0 ∧
      (sm_step f c).runlevel = c.runlevel ∧ (sm_step f c).prevlevel = c.prevlevel := by
  obtain ⟨k1, _, k3, k4, k5, k6, _, _, k9, _⟩ := sm_step_reload_cycle f c hs hn hr hd
  exact ⟨k9, k1, k3, k4, k5, k6⟩

/-- C16 at a concrete context: level 3 running, reload requested, nothing else
pending. -/
theorem C16_full_reload_cycle_witness :
    (sm_step (fun _ => true) ⟨⟨SM_RUNNING_STATE, -1, 1, 0⟩, 3, 2, false, 0, [], []⟩).sm.state
      = SM_RUNNING_STATE ∧
    (sm_step (fun _ => true) ⟨⟨SM_RUNNING_STATE, -1, 1, 0⟩, 3, 2, false, 0, [], []⟩).sm.reload
      = 0 :=
  have h := C16_full_reload_cycle (fun _ => true)
    ⟨⟨SM_RUNNING_STATE, -1, 1, 0⟩, 3, 2, false, 0, [], []⟩ rfl (by decide) (by decide) rfl
  ⟨h.2.1, h.2.2.1⟩

/-- C17: in SM_RUNNING_STATE at a level lc > 0, with a level n in [0,9]
pending, n different from lc, 0 and 6, the reload flag clear and the stop-done
poll answering true, sm_step makes exactly the calls runlevel_set(lc, n),
conf_reload_dynamic, service_step_all(SVC_TYPE_ANY), service_stop_is_done,
plugin_run_hooks(HOOK_RUNLEVEL_CHANGE), service_step_all(SVC_TYPE_ANY),
svc_clean_dynamic(service_unregister), touch(/etc/nologin) when n = 1 and
erase(/etc/nologin) otherwise, tty_runlevel(n), in that order; in_teardown is 1
during the first service_step_all and the hooks and 0 during the second
service_step_all; and it returns in SM_RUNNING_STATE with in_teardown = 0,
runlevel = n and prevlevel = lc. -/
theorem C17_full_runlevel_change (f : Nat → Bool) (c : Ctx) (lc n : Int)
    (hs : c.sm.state = SM_RUNNING_STATE) (hlc : c.runlevel = lc) (hpos : 0 < lc)
    (hnl : c.sm.newlevel = n) (hn : 0 ≤ n ∧ n ≤ 9) (hne : n ≠ lc) (h0 : n ≠ 0) (h6 : n ≠ 6)
    (hr : c.sm.reload = 0) (hd : f c.polls = true) :
    (sm_step f c).trace = c.trace ++
        [⟨Call.runlevel_set lc n, c.sm.in_teardown⟩,
         ⟨Call.conf_reload_dynamic, c.sm.in_teardown⟩,
         ⟨Call.service_step_all [SVC_TYPE_ANY], 1⟩,
         ⟨Call.service_stop_is_done true, 1⟩,
         ⟨Call.plugin_run_hooks HOOK_RUNLEVEL_CHANGE, 1⟩,
         ⟨Call.service_step_all [SVC_TYPE_ANY], 0⟩,
         ⟨Call.svc_clean_dynamic_service_unregister, 0⟩,
         ⟨if n = 1 then Call.touch "/etc/nologin" else Call.erase "/etc/nologin", 0⟩,
         ⟨Call.tty_runlevel n, 0⟩] ∧
      (sm_step f c).sm.state = SM_RUNNING_STATE ∧ (sm_step f c).sm.in_teardown = 0 ∧
      (sm_step f c).sm.newlevel = -1 ∧
      (sm_step f c).runlevel = n ∧ (sm_step f c).prevlevel = lc ∧
      (sm_step f c).nologin = decide (n = 1) := by
  obtain ⟨g1, _, _, m1, m2, m3, m4, m5, m6, m7, m8, m9, m10⟩ :=
    sm_step_enter_change f c hs (by rw [hnl]; exact hn) (by rw [hnl, hlc]; exact fun e => hne e.symm)
  obtain ⟨g2, k1, k2, k3, k4, k5, k6, k7, k8, k9, k10⟩ :=
    sm_step_runlevel_wait_done f (sm_pass f (sm_pass f c)) m1 (by rw [m8]; exact hd)
  rw [m5, hnl] at k5 k9 k10
  rw [m4, m6, hlc, m9, hnl, hlc] at k10
  have hq := sm_step_running_quiet f (sm_pass f (sm_pass f (sm_pass f c))) k1
    (Or.inr ⟨by rw [k2, m2]; omega, by rw [k3, m3]; exact hr⟩)
  obtain ⟨q1, q2, q3, q4, q5, q6, q7, q8, q9⟩ := hq
  rw [g1, g2]
  have e0 : ¬ (0 = n) := fun e => h0 e.symm
  have e6 : ¬ (6 = n) := fun e => h6 e.symm
  refine ⟨?_, q1, q4.trans k4, ?_, q5.trans k5, ?_, ?_⟩
  · rw [q9, k10, if_neg e0, if_neg e6, if_pos hpos]
    by_cases h1 : n = 1
    · simp [h1]
    · simp [h1, h0, h6]
  · rw [q2, k2, m2]; simp
  · rw [q6, k6, m6, hlc]
  · rw [q7, k9]
    by_cases h1 : n = 1
    · simp [h1]
    · simp [h1, h0, h6]

/-- C17 at a concrete context: from level 3 to level 2. -/
theorem C17_full_runlevel_change_witness :
    calls (sm_step (fun _ => true) ⟨⟨SM_RUNNING_STATE, 2, 0, 0⟩, 3, 2, true, 0, [], []⟩)
      = [Call.runlevel_set 3 2, Call.conf_reload_dynamic,
         Call.service_step_all [SVC_TYPE_ANY], Call.service_stop_is_done true,
         Call.plugin_run_hooks HOOK_RUNLEVEL_CHANGE, Call.service_step_all [SVC_TYPE_ANY],
         Call.svc_clean_dynamic_service_unregister, Call.erase "/etc/nologin",
         Call.tty_runlevel 2] := by
  have h := (C17_full_runlevel_change (fun _ => true)
    ⟨⟨SM_RUNNING_STATE, 2, 0, 0⟩, 3, 2, true, 0, [], []⟩ 3 2 rfl rfl (by decide) rfl
    (by decide) (by decide) (by decide) (by decide) rfl rfl).1
  simp [calls, h]

/-! ## C18: a level change goes before a reload -/

/-- C18: in SM_RUNNING_STATE with the reload flag set and a level n in [0,9]
other than the current one pending, sm_step first runs the run-level change:
its first three calls are runlevel_set, conf_reload_dynamic and
service_step_all(SVC_TYPE_ANY), so runlevel_set comes before any cond_reload;
the reload flag is unchanged while the machine is in
SM_RUNLEVEL_CHANGE_STATE and SM_RUNLEVEL_WAIT_STATE (also when it parks
there); SM_RELOAD_CHANGE_STATE is entered only from SM_RUNNING_STATE after the
run-level wait has completed; and when the two stop-done polls of the call
answer true the call runs the run-level cycle and then the reload cycle and
returns in SM_RUNNING_STATE with reload = 0 and newlevel = -1. -/
theorem C18_level_change_before_reload (f : Nat → Bool) (c : Ctx) (n : Int)
    (hs : c.sm.state = SM_RUNNING_STATE) (hr : c.sm.reload ≠ 0)
    (hnl : c.sm.newlevel = n) (hn : 0 ≤ n ∧ n ≤ 9) (hne : n ≠ c.runlevel) :
    (∃ ts, (sm_step f c).trace = c.trace ++
        [⟨Call.runlevel_set c.runlevel n, c.sm.in_teardown⟩,
         ⟨Call.conf_reload_dynamic, c.sm.in_teardown⟩,
         ⟨Call.service_step_all [SVC_TYPE_ANY], 1⟩] ++ ts) ∧
      ((sm_pass f c).sm.state = SM_RUNLEVEL_CHANGE_STATE ∧
        (sm_pass f c).sm.reload = c.sm.reload ∧
        (sm_pass f (sm_pass f c)).sm.state = SM_RUNLEVEL_WAIT_STATE ∧
        (sm_pass f (sm_pass f c)).sm.reload = c.sm.reload) ∧
      (f c.polls = false →
        (sm_step f c).sm.state = SM_RUNLEVEL_WAIT_STATE ∧
        (sm_step f c).sm.reload = c.sm.reload ∧
        (sm_step f c).visited = c.visited ++
          [SM_RUNNING_STATE, SM_RUNLEVEL_CHANGE_STATE, SM_RUNLEVEL_WAIT_STATE]) ∧
      (f c.polls = true → f (c.polls + 1) = false →
        (sm_step f c).sm.state = SM_RELOAD_WAIT_STATE ∧ (sm_step f c).sm.reload = 0 ∧
        (sm_step f c).visited = c.visited ++
          [SM_RUNNING_STATE, SM_RUNLEVEL_CHANGE_STATE, SM_RUNLEVEL_WAIT_STATE,
           SM_RUNNING_STATE, SM_RELOAD_CHANGE_STATE, SM_RELOAD_WAIT_STATE]) ∧
      (f c.polls = true → f (c.polls + 1) = true →
        (sm_step f c).sm.state = SM_RUNNING_STATE ∧ (sm_step f c).sm.reload = 0 ∧
        (sm_step f c).sm.newlevel = -1 ∧ (sm_step f c).runlevel = n ∧
        (sm_step f c).prevlevel = c.runlevel ∧
        (sm_step f c).visited = c.visited ++
          [SM_RUNNING_STATE, SM_RUNLEVEL_CHANGE_STATE, SM_RUNLEVEL_WAIT_STATE,
           SM_RUNNING_STATE, SM_RELOAD_CHANGE_STATE, SM_RELOAD_WAIT_STATE,
           SM_RUNNING_STATE] ∧
        (sm_step f c).trace = c.trace ++
          [⟨Call.runlevel_set c.runlevel n, c.sm.in_teardown⟩,
           ⟨Call.conf_reload_dynamic, c.sm.in_teardown⟩,
           ⟨Call.service_step_all [SVC_TYPE_ANY], 1⟩] ++
          ([⟨Call.service_stop_is_done true, 1⟩,
            ⟨Call.plugin_run_hooks HOOK_RUNLEVEL_CHANGE, 1⟩,
            ⟨Call.service_step_all [SVC_TYPE_ANY], 0⟩,
            ⟨Call.svc_clean_dynamic_service_unregister, 0⟩,
            ⟨if n = 1 ∨ n = 0 ∨ n = 6 then Call.touch "/etc/nologin"
             else Call.erase "/etc/nologin", 0⟩] ++
           (if 0 = n then [⟨Call.do_shutdown SHUT_OFF, 0⟩]
            else if 6 = n then [⟨Call.do_shutdown SHUT_REBOOT, 0⟩]
            else if c.runlevel > 0 then [⟨Call.tty_runlevel n, 0⟩]
            else [])) ++
          [⟨Call.conf_reload_dynamic, 0⟩,
           ⟨Call.cond_reload, 1⟩,
           ⟨Call.service_step_all [SVC_TYPE_SERVICE, SVC_TYPE_INETD], 1⟩,
           ⟨Call.service_stop_is_done true, 1⟩,
           ⟨Call.svc_clean_dynamic_service_unregister, 0⟩,
           ⟨Call.service_step_all [SVC_TYPE_SERVICE, SVC_TYPE_INETD], 0⟩,
           ⟨Call.plugin_run_hooks HOOK_SVC_RECONF, 0⟩,
           ⟨Call.service_step_all [SVC_TYPE_SERVICE, SVC_TYPE_INETD], 0⟩]) := by
  obtain ⟨g1, a1, a2, m1, m2, m3, m4, m5, m6, m7, m8, m9, m10⟩ :=
    sm_step_enter_change f c hs (by rw [hnl]; exact hn) (by rw [hnl]; exact fun e => hne e.symm)
  rw [hnl] at m5 m9
  refine ⟨?_, ⟨a1, a2, m1, m3⟩, ?_, ?_, ?_⟩
  · obtain ⟨ts, hts⟩ := sm_step_trace_grows f (sm_pass f (sm_pass f c))
    exact ⟨ts, by rw [g1, hts, m9]⟩
  · intro hd
    obtain ⟨p1, _, _, _, _, _, p7⟩ :=
      sm_step_wait_parked f (sm_pass f (sm_pass f c)) (Or.inl m1) (by rw [m8]; exact hd)
    rw [g1, p1]
    refine ⟨m1, m3, ?_⟩
    rw [p7, m10, m1]
    simp
  · intro hd hd2
    obtain ⟨g2, k1, k2, k3, k4, k5, k6, k7, k8, k9, k10⟩ :=
      sm_step_runlevel_wait_done f (sm_pass f (sm_pass f c)) m1 (by rw [m8]; exact hd)
    obtain ⟨q1, _, q3, _, _, _, _, _, _, q10⟩ :=
      sm_step_reload_parked f (sm_pass f (sm_pass f (sm_pass f c))) k1
        (by rw [k2, m2]; omega) (by rw [k3, m3]; exact hr) (by rw [k7, m8]; exact hd2)
    rw [g1, g2]
    refine ⟨q1, q3, ?_⟩
    rw [q10, k8, m10]
    simp
  · intro hd hd2
    obtain ⟨g2, k1, k2, k3, k4, k5, k6, k7, k8, k9, k10⟩ :=
      sm_step_runlevel_wait_done f (sm_pass f (sm_pass f c)) m1 (by rw [m8]; exact hd)
    obtain ⟨q1, q2, q3, _, q5, q6, _, _, q9, q10⟩ :=
      sm_step_reload_cycle f (sm_pass f (sm_pass f (sm_pass f c))) k1
        (by rw [k2, m2]; omega) (by rw [k3, m3]; exact hr) (by rw [k7, m8]; exact hd2)
    rw [g1, g2]
    refine ⟨q1, q3, by rw [q2, k2, m2], by rw [q5, k5, m5], by rw [q6, k6, m6], ?_, ?_⟩
    · rw [q10, k8, m10]
      simp
    · rw [q9, k4, k10, m4, m5, m6, m9]
      simp only [List.append_assoc]

/-- C18 at a concrete context: level 3 running, level 2 and a reload pending,
both polls answering true. -/
theorem C18_level_change_before_reload_witness :
    (sm_step (fun _ => true) ⟨⟨SM_RUNNING_STATE, 2, 1, 0⟩, 3, 2, false, 0, [], []⟩).visited
      = [SM_RUNNING_STATE, SM_RUNLEVEL_CHANGE_STATE, SM_RUNLEVEL_WAIT_STATE,
         SM_RUNNING_STATE, SM_RELOAD_CHANGE_STATE, SM_RELOAD_WAIT_STATE,
         SM_RUNNING_STATE] ∧
    (sm_step (fun _ => true) ⟨⟨SM_RUNNING_STATE, 2, 1, 0⟩, 3, 2, false, 0, [], []⟩).sm.reload
      = 0 :=
  have h := (C18_level_change_before_reload (fun _ => true)
    ⟨⟨SM_RUNNING_STATE, 2, 1, 0⟩, 3, 2, false, 0, [], []⟩ 2 rfl (by decide) rfl (by decide)
    (by decide)).2.2.2.2 rfl rfl
  ⟨h.2.2.2.2.2.1, h.2.1⟩

/-! ## C19: the loop ends -/

/-- The number of passes of a call is at most `sm_measure` plus one. -/
theorem sm_step_passes_bounded (f : Nat → Bool) (c : Ctx) :
    (sm_step f c).visited.length ≤ c.visited.length + sm_measure c + 1 := by
  apply sm_step_rel f (fun c r => r.visited.length ≤ c.visited.length + sm_measure c + 1)
  · intro d _
    rw [sm_pass_visited]
    simp
  · intro d r h ih
    have h1 := sm_measure_decreases f d h
    rw [sm_pass_visited] at ih
    simp only [List.length_append, List.length_singleton] at ih
    omega

/-- The bound `sm_measure` is at most 8, and at most 7 outside the two change
states. -/
theorem sm_measure_le (c : Ctx) :
    sm_measure c ≤ 8 ∧
      (c.sm.state ≠ SM_RUNLEVEL_CHANGE_STATE → c.sm.state ≠ SM_RELOAD_CHANGE_STATE →
        sm_measure c ≤ 7) := by
  unfold sm_measure measure_of
  rcases hs : c.sm.state <;> simp only [] <;>
    (constructor
     · split_ifs <;> omega
     · intro h1 h2
       first
         | exact absurd rfl h1
         | exact absurd rfl h2
         | (split_ifs <;> omega))

/-- Visits of a state are bounded by any budget that every pass starting in
that state uses up. -/
theorem visits_bounded (f : Nat → Bool) (s : sm_state_t) (budget : Ctx → Nat)
    (hpass : ∀ d, (if d.sm.state = s then 1 else 0) + budget (sm_pass f d) ≤ budget d)
    (c : Ctx) : (sm_step f c).visited.count s ≤ c.visited.count s + budget c := by
  have hone : ∀ d : Ctx, List.count s [d.sm.state] = if d.sm.state = s then 1 else 0 := by
    intro d
    by_cases h : d.sm.state = s
    · simp [h]
    · rw [if_neg h]
      exact List.count_eq_zero.mpr (by simpa using Ne.symm h)
  apply sm_step_rel f (fun c r => r.visited.count s ≤ c.visited.count s + budget c)
  · intro d _
    have := hpass d
    rw [sm_pass_visited, List.count_append, hone]
    omega
  · intro d r _ ih
    have := hpass d
    rw [sm_pass_visited, List.count_append, hone] at ih
    omega

/-- Every pass that starts in SM_RUNLEVEL_CHANGE_STATE uses up the change
budget, and no pass raises it. -/
theorem change_budget_pass (f : Nat → Bool) (d : Ctx) :
    (if d.sm.state = SM_RUNLEVEL_CHANGE_STATE then 1 else 0) + change_budget (sm_pass f d)
      ≤ change_budget d := by
  apply sm_pass_elim f d (fun e =>
    (if d.sm.state = SM_RUNLEVEL_CHANGE_STATE then 1 else 0) + change_budget e
      ≤ change_budget d)
  · intro h1
    simp [change_budget, case_bootstrap, h1]
  · intro h1 h2 _
    simp [change_budget, h1, h2]
  · intro h1 h2 _
    simp [change_budget, h1, h2]
  · intro h1 h2 _
    simp [change_budget, h1, h2]
  · intro h1 h2 _
    simp [change_budget, h1, h2]
  · intro h1
    simp [change_budget, case_runlevel_change, h1]
  · intro h1 _
    simp [change_budget, h1]
  · intro h1 h2
    have hf := case_runlevel_wait_done f (log_state d) h2
    simp only [log_state_fields] at hf
    simp [change_budget, hf, h1]
  · intro h1
    simp [change_budget, case_reload_change, h1]
  · intro h1 _
    simp [change_budget, h1]
  · intro h1 _
    simp [change_budget, h1]

/-- Every pass that starts in SM_RELOAD_CHANGE_STATE uses up one unit of the
reload budget, and no pass raises it. -/
theorem reload_budget_pass (f : Nat → Bool) (d : Ctx) :
    (if d.sm.state = SM_RELOAD_CHANGE_STATE then 1 else 0) + reload_budget (sm_pass f d)
      ≤ reload_budget d := by
  apply sm_pass_elim f d (fun e =>
    (if d.sm.state = SM_RELOAD_CHANGE_STATE then 1 else 0) + reload_budget e
      ≤ reload_budget d)
  · intro h1
    simp [reload_budget, case_bootstrap, h1]
  · intro h1 _ _
    simp [reload_budget, h1]
  · intro h1 _ _
    simp [reload_budget, h1]
  · intro h1 _ h3
    simp [reload_budget, h1, h3]
  · intro h1 _ _
    simp [reload_budget, h1]
  · intro h1
    simp [reload_budget, case_runlevel_change, h1]
  · intro h1 _
    simp [reload_budget, h1]
  · intro h1 h2
    have hf := case_runlevel_wait_done f (log_state d) h2
    simp only [log_state_fields] at hf
    simp [reload_budget, hf, h1]
  · intro h1
    simp [reload_budget, case_reload_change, h1]
  · intro h1 _
    simp [reload_budget, h1]
  · intro h1 _
    simp [reload_budget, h1]

/-- C19, as stated, fails in its last part: started in
SM_RELOAD_CHANGE_STATE with the reload flag set and every stop-done answer
true, one call of sm_step goes through SM_RELOAD_CHANGE_STATE twice and calls
cond_reload twice. -/
theorem C19_counterexample :
    (sm_step (fun _ => true)
        ⟨⟨SM_RELOAD_CHANGE_STATE, -1, 1, 0⟩, 3, 2, false, 0, [], []⟩).visited
      = [SM_RELOAD_CHANGE_STATE, SM_RELOAD_WAIT_STATE, SM_RUNNING_STATE,
         SM_RELOAD_CHANGE_STATE, SM_RELOAD_WAIT_STATE, SM_RUNNING_STATE] ∧
    (calls (sm_step (fun _ => true)
        ⟨⟨SM_RELOAD_CHANGE_STATE, -1, 1, 0⟩, 3, 2, false, 0, [], []⟩)).count Call.cond_reload
      = 2 := by
  constructor <;>
  simp [calls, sm_step_unfold, sm_pass, sm_switch, log_state, case_running,
    case_reload_change, case_reload_wait, service_stop_is_done, emit, set_state,
    set_in_teardown, set_newlevel, set_reload]

/-- C19, amended: sm_step always returns (it is a total function), after at
most 9 passes, that is at most 8 state changes, whatever the starting context
and the stop-done answers, and after at most 8 passes (7 state changes) when
started outside the two change states, as it is between operations.  It goes
through SM_RUNLEVEL_CHANGE_STATE at most once per call.  It goes through
SM_RELOAD_CHANGE_STATE at most once per call when started outside that state,
and at most twice otherwise. -/
theorem C19_step_terminates_within_bounds (f : Nat → Bool) (c : Ctx) :
    (sm_step f c).visited.length ≤ c.visited.length + 9 ∧
      (c.sm.state ≠ SM_RUNLEVEL_CHANGE_STATE → c.sm.state ≠ SM_RELOAD_CHANGE_STATE →
        (sm_step f c).visited.length ≤ c.visited.length + 8) ∧
      (sm_step f c).visited.count SM_RUNLEVEL_CHANGE_STATE
        ≤ c.visited.count SM_RUNLEVEL_CHANGE_STATE + 1 ∧
      (sm_step f c).visited.count SM_RELOAD_CHANGE_STATE
        ≤ c.visited.count SM_RELOAD_CHANGE_STATE + 2 ∧
      (c.sm.state ≠ SM_RELOAD_CHANGE_STATE →
        (sm_step f c).visited.count SM_RELOAD_CHANGE_STATE
          ≤ c.visited.count SM_RELOAD_CHANGE_STATE + 1) := by
  have hp := sm_step_passes_bounded f c
  have hm := sm_measure_le c
  have h1 := visits_bounded f SM_RUNLEVEL_CHANGE_STATE change_budget (change_budget_pass f) c
  have h2 := visits_bounded f SM_RELOAD_CHANGE_STATE reload_budget (reload_budget_pass f) c
  have b1 : change_budget c ≤ 1 := by
    unfold change_budget; split_ifs <;> omega
  have b2 : reload_budget c ≤ 2 := by
    unfold reload_budget; split_ifs <;> omega
  refine ⟨by omega, fun e1 e2 => ?_, by omega, by omega, fun e => ?_⟩
  · have := hm.2 e1 e2
    omega
  · have b3 : reload_budget c ≤ 1 := by
      unfold reload_budget; rw [if_neg e]; split_ifs <;> omega
    omega

/-! ## C20: the previous level differs from the current one -/

/-- Inside the loop of `sm_step`: the two levels differ, the pending level
differs from the current one whenever the machine is about to assign it, and
every runlevel_set recorded since the start (`base` holds the earlier ones)
has two different arguments. -/
theorem levels_differ_kept (f : Nat → Bool) (base : List Call) (d : Ctx)
    (h : d.prevlevel ≠ d.runlevel ∧
      (d.sm.state = SM_RUNLEVEL_CHANGE_STATE → d.runlevel ≠ d.sm.newlevel) ∧
      (∀ p n, Call.runlevel_set p n ∈ calls d → Call.runlevel_set p n ∈ base ∨ p ≠ n)) :
    (sm_pass f d).prevlevel ≠ (sm_pass f d).runlevel ∧
      ((sm_pass f d).sm.state = SM_RUNLEVEL_CHANGE_STATE →
        (sm_pass f d).runlevel ≠ (sm_pass f d).sm.newlevel) ∧
      (∀ p n, Call.runlevel_set p n ∈ calls (sm_pass f d) →
        Call.runlevel_set p n ∈ base ∨ p ≠ n) := by
  obtain ⟨hl, hc, ht⟩ := h
  simp only [calls] at ht ⊢
  apply sm_pass_elim f d (fun e => e.prevlevel ≠ e.runlevel ∧
      (e.sm.state = SM_RUNLEVEL_CHANGE_STATE → e.runlevel ≠ e.sm.newlevel) ∧
      (∀ p n, Call.runlevel_set p n ∈ e.trace.map call_record.call →
        Call.runlevel_set p n ∈ base ∨ p ≠ n))
  · intro _
    refine ⟨by simpa [case_bootstrap] using hl, by simp [case_bootstrap], fun p n hm => ?_⟩
    exact ht p n (by simpa [case_bootstrap] using hm)
  · intro h1 _ _
    exact ⟨by simpa using hl, by simp [h1], fun p n hm => ht p n (by simpa using hm)⟩
  · intro _ _ h3
    exact ⟨by simpa using hl, fun _ => by simpa using h3,
      fun p n hm => ht p n (by simpa using hm)⟩
  · intro _ _ _
    exact ⟨by simpa using hl, by simp, fun p n hm => ht p n (by simpa using hm)⟩
  · intro h1 _ _
    exact ⟨by simpa using hl, by simp [h1], fun p n hm => ht p n (by simpa using hm)⟩
  · intro h1
    refine ⟨by simpa [case_runlevel_change] using hc h1, by simp [case_runlevel_change],
      fun p n hm => ?_⟩
    simp only [case_runlevel_change, set_state_fields, emit_fields, set_in_teardown_fields,
      set_newlevel_fields, set_runlevel_fields, set_prevlevel_fields, log_state_fields,
      List.map_append, List.mem_append, List.map_cons, List.map_nil, List.mem_singleton]
      at hm
    rcases hm with ((hm | hm) | hm) | hm
    · exact ht p n hm
    · injection hm with e1 e2
      rw [e1, e2]
      exact Or.inr (hc h1)
    · exact absurd hm (by simp)
    · exact absurd hm (by simp)
  · intro h1 _
    exact ⟨by simpa using hl, by simp [h1], fun p n hm => ht p n (by simpa using hm)⟩
  · intro _ h2
    have hf := case_runlevel_wait_done f (log_state d) h2
    have hg := case_runlevel_wait_done_trace f (log_state d) h2
    simp only [log_state_fields] at hf hg
    refine ⟨by rw [hf.2.2.2.2.1, hf.2.2.2.2.2.1]; exact hl, by rw [hf.1]; simp,
      fun p n hm => ?_⟩
    rw [hg] at hm
    simp only [List.map_append, List.mem_append] at hm
    rcases hm with (hm | hm) | hm
    · exact ht p n hm
    · exfalso
      revert hm
      split_ifs <;> simp
    · exfalso
      revert hm
      split_ifs <;> simp
  · intro _
    exact ⟨by simpa [case_reload_change] using hl, by simp [case_reload_change],
      fun p n hm => ht p n (by simpa [case_reload_change] using hm)⟩
  · intro h1 _
    exact ⟨by simpa using hl, by simp [h1], fun p n hm => ht p n (by simpa using hm)⟩
  · intro _ _
    exact ⟨by simpa using hl, by simp, fun p n hm => ht p n (by simpa using hm)⟩

/-- C20: if prevlevel differs from runlevel when sm_init is called, then
after every sequence of sm_set_runlevel, sm_set_reload and sm_step operations
and whatever the stop-done answers, prevlevel differs from runlevel, and every
assignment of the levels made in SM_RUNLEVEL_CHANGE_STATE since then, each
recorded by its runlevel_set(prevlevel, runlevel) call, stored a runlevel
different from the one it replaced. -/
theorem C20_prevlevel_differs (f : Nat → Bool) (c0 : Ctx) (ops : List Op)
    (h : c0.prevlevel ≠ c0.runlevel) :
    (run_ops f (sm_init c0) ops).prevlevel ≠ (run_ops f (sm_init c0) ops).runlevel ∧
      (∀ p n, Call.runlevel_set p n ∈ calls (run_ops f (sm_init c0) ops) →
        Call.runlevel_set p n ∈ calls c0 ∨ p ≠ n) := by
  have key := run_ops_inv f (fun d => d.prevlevel ≠ d.runlevel ∧
      d.sm.state ≠ SM_RUNLEVEL_CHANGE_STATE ∧
      (∀ p n, Call.runlevel_set p n ∈ calls d → Call.runlevel_set p n ∈ calls c0 ∨ p ≠ n))
    (by
      intro d op hd
      cases op with
      | set_runlevel v => exact hd
      | set_reload => exact hd
      | step =>
        have hloop := sm_step_inv f _ (levels_differ_kept f (calls c0)) d
          ⟨hd.1, fun e => absurd e hd.2.1, hd.2.2⟩
        refine ⟨hloop.1, ?_, hloop.2.2⟩
        show (sm_step f d).sm.state ≠ SM_RUNLEVEL_CHANGE_STATE
        rcases sm_step_returns_settled f d with e | e | e <;> simp [e])
    ops (sm_init c0) ⟨h, by simp [sm_init], fun p n hm => Or.inl hm⟩
  exact ⟨key.1, key.2.2⟩

/-- C20 at a concrete run: boot at level 3 with prevlevel unset (-1), a
request for level 2, then one for level 2 again and one for level 5. -/
theorem C20_prevlevel_differs_witness :
    (run_ops (fun _ => true)
        (sm_init ⟨⟨SM_BOOTSTRAP_STATE, -1, 0, 0⟩, 3, -1, false, 0, [], []⟩)
        [Op.step, Op.set_runlevel 2, Op.step, Op.set_runlevel 2, Op.step,
          Op.set_runlevel 5, Op.step]).prevlevel ≠
    (run_ops (fun _ => true)
        (sm_init ⟨⟨SM_BOOTSTRAP_STATE, -1, 0, 0⟩, 3, -1, false, 0, [], []⟩)
        [Op.step, Op.set_runlevel 2, Op.step, Op.set_runlevel 2, Op.step,
          Op.set_runlevel 5, Op.step]).runlevel :=
  (C20_prevlevel_differs (fun _ => true)
    ⟨⟨SM_BOOTSTRAP_STATE, -1, 0, 0⟩, 3, -1, false, 0, [], []⟩
    [Op.step, Op.set_runlevel 2, Op.step, Op.set_runlevel 2, Op.step, Op.set_runlevel 5, Op.step]
    (by decide)).1

/-! ## C2, amended: what a completed change into level 0 or 6 does -/

/-- When every stop-done answer from the first poll of the call on is true,
`sm_step` returns in SM_RUNNING_STATE. -/
theorem sm_step_polls_done_running (f : Nat → Bool) (c : Ctx)
    (hf : ∀ k, c.polls ≤ k → f k = true) : (sm_step f c).sm.state = SM_RUNNING_STATE := by
  have key := sm_step_rel f (fun c r => (∀ k, c.polls ≤ k → f k = true) →
      r.sm.state = SM_RUNNING_STATE)
    (by
      intro d
      apply sm_pass_elim f d (fun e => e.sm.state = d.sm.state →
        (∀ k, d.polls ≤ k → f k = true) → e.sm.state = SM_RUNNING_STATE)
      · intro h1; simp [case_bootstrap]
      · intro h1 _ _; simp [h1]
      · intro h1 _ _; simp [h1]
      · intro h1 _ _; simp [h1]
      · intro h1 _ _; simp [h1]
      · intro h1; simp [case_runlevel_change, h1]
      · intro _ h2 _ h4; rw [h4 d.polls (Nat.le_refl _)] at h2; exact absurd h2 (by simp)
      · intro _ h2 _ _; exact (case_runlevel_wait_done f (log_state d) h2).1
      · intro h1; simp [case_reload_change, h1]
      · intro _ h2 _ h4; rw [h4 d.polls (Nat.le_refl _)] at h2; exact absurd h2 (by simp)
      · intro _ _; simp)
    (by
      intro d r _ ih h
      have hm := sm_pass_polls_mono f d
      exact ih (fun k hk => h k (Nat.le_trans hm hk)))
    c
  exact key hf

/-- A pass that starts outside the two run-level states with no level pending
calls no do_shutdown and stays outside them. -/
theorem sm_pass_no_shutdown (f : Nat → Bool) (d : Ctx) (hnl : d.sm.newlevel = -1)
    (hs1 : d.sm.state ≠ SM_RUNLEVEL_CHANGE_STATE) (hs2 : d.sm.state ≠ SM_RUNLEVEL_WAIT_STATE) :
    (sm_pass f d).sm.newlevel = -1 ∧ (sm_pass f d).sm.state ≠ SM_RUNLEVEL_CHANGE_STATE ∧
      (sm_pass f d).sm.state ≠ SM_RUNLEVEL_WAIT_STATE ∧
      ∃ ts, (sm_pass f d).trace = d.trace ++ ts ∧
        (ts.map call_record.call).filter is_do_shutdown = [] := by
  apply sm_pass_elim f d (fun e => e.sm.newlevel = -1 ∧
      e.sm.state ≠ SM_RUNLEVEL_CHANGE_STATE ∧ e.sm.state ≠ SM_RUNLEVEL_WAIT_STATE ∧
      ∃ ts, e.trace = d.trace ++ ts ∧ (ts.map call_record.call).filter is_do_shutdown = [])
  · intro _
    exact ⟨by simpa [case_bootstrap] using hnl, by simp [case_bootstrap],
      by simp [case_bootstrap],
      ⟨_, by simp [case_bootstrap]; rfl, by simp [is_do_shutdown]⟩⟩
  · intro _ h2 _
    rw [hnl] at h2; omega
  · intro _ h2 _
    rw [hnl] at h2; omega
  · intro _ _ _
    exact ⟨by simpa using hnl, by simp, by simp, ⟨[], by simp, rfl⟩⟩
  · intro h1 _ _
    exact ⟨by simpa using hnl, by simp [h1], by simp [h1], ⟨[], by simp, rfl⟩⟩
  · intro h1
    exact absurd h1 hs1
  · intro h1 _
    exact absurd h1 hs2
  · intro h1 _
    exact absurd h1 hs2
  · intro _
    exact ⟨by simpa [case_reload_change] using hnl, by simp [case_reload_change],
      by simp [case_reload_change],
      ⟨_, by simp [case_reload_change, List.append_assoc]; rfl, by simp [is_do_shutdown]⟩⟩
  · intro h1 _
    exact ⟨by simpa using hnl, by simp [h1], by simp [h1],
      ⟨_, by simp; rfl, by simp [is_do_shutdown]⟩⟩
  · intro _ _
    exact ⟨by simpa using hnl, by simp, by simp,
      ⟨_, by simp [List.append_assoc]; rfl, by simp [is_do_shutdown]⟩⟩

/-- From a context outside the two run-level states with no level pending, the
rest of the call calls no do_shutdown. -/
theorem sm_step_no_shutdown (f : Nat → Bool) (c : Ctx) (hnl : c.sm.newlevel = -1)
    (hs1 : c.sm.state ≠ SM_RUNLEVEL_CHANGE_STATE) (hs2 : c.sm.state ≠ SM_RUNLEVEL_WAIT_STATE) :
    ∃ ts, (sm_step f c).trace = c.trace ++ ts ∧
      (ts.map call_record.call).filter is_do_shutdown = [] := by
  have key := sm_step_rel f (fun c r => c.sm.newlevel = -1 →
      c.sm.state ≠ SM_RUNLEVEL_CHANGE_STATE → c.sm.state ≠ SM_RUNLEVEL_WAIT_STATE →
      ∃ ts, r.trace = c.trace ++ ts ∧ (ts.map call_record.call).filter is_do_shutdown = [])
    (by
      intro d _ h1 h2 h3
      exact (sm_pass_no_shutdown f d h1 h2 h3).2.2.2)
    (by
      intro d r _ ih h1 h2 h3
      obtain ⟨p1, p2, p3, ts1, p4, p5⟩ := sm_pass_no_shutdown f d h1 h2 h3
      obtain ⟨ts2, i1, i2⟩ := ih p1 p2 p3
      refine ⟨ts1 ++ ts2, by rw [i1, p4, List.append_assoc], ?_⟩
      rw [List.map_append, List.filter_append, p5, i2]
      rfl)
    c
  exact key hnl hs1 hs2

/-- C2, amended: when sm_step is in SM_RUNLEVEL_WAIT_STATE with runlevel 0
(resp. 6) and the stop-done poll answers true, then for every reload flag,
every pending level and every later answer, do_shutdown(SHUT_OFF) (resp.
do_shutdown(SHUT_REBOOT)) is invoked exactly once during the call and
/etc/nologin is created during the call; do_shutdown is invoked exactly once
in all unless the pending level is the other shutdown level; in that case the
same call goes on to that level (it goes through SM_RUNLEVEL_CHANGE_STATE
once and returns with runlevel the pending level and prevlevel the old one),
parking in SM_RUNLEVEL_WAIT_STATE with no further do_shutdown when the next
poll answers false and invoking do_shutdown a second time, with the other
mode, when it answers true; the marker is present on return unless a request
for another level in [0,9] is pending; and sm_step returns in
SM_RUNNING_STATE when every stop-done answer of the call (every answer from
the poll numbered c.polls on) is true. -/
theorem C2_shutdown_on_halt_or_reboot (f : Nat → Bool) (c : Ctx) (md : shutop_t)
    (hs : c.sm.state = SM_RUNLEVEL_WAIT_STATE)
    (hmd : (c.runlevel = 0 ∧ md = SHUT_OFF) ∨ (c.runlevel = 6 ∧ md = SHUT_REBOOT))
    (hd : f c.polls = true) :
    (calls (sm_step f c)).count (Call.do_shutdown md) =
        (calls c).count (Call.do_shutdown md) + 1 ∧
      (∃ ts, (sm_step f c).trace = c.trace ++ ts ∧ ⟨Call.touch "/etc/nologin", 0⟩ ∈ ts) ∧
      (¬ (c.sm.newlevel ≠ c.runlevel ∧ (c.sm.newlevel = 0 ∨ c.sm.newlevel = 6)) →
        (calls (sm_step f c)).countP is_do_shutdown = (calls c).countP is_do_shutdown + 1) ∧
      (¬ (0 ≤ c.sm.newlevel ∧ c.sm.newlevel ≤ 9 ∧ c.sm.newlevel ≠ c.runlevel) →
        (sm_step f c).nologin = true) ∧
      ((∀ k, c.polls ≤ k → f k = true) → (sm_step f c).sm.state = SM_RUNNING_STATE) ∧
      ((c.sm.newlevel ≠ c.runlevel ∧ (c.sm.newlevel = 0 ∨ c.sm.newlevel = 6)) →
        (sm_step f c).runlevel = c.sm.newlevel ∧ (sm_step f c).prevlevel = c.runlevel ∧
        (sm_step f c).visited.count SM_RUNLEVEL_CHANGE_STATE =
          c.visited.count SM_RUNLEVEL_CHANGE_STATE + 1 ∧
        (f (c.polls + 1) = false →
          (sm_step f c).sm.state = SM_RUNLEVEL_WAIT_STATE ∧
          (calls (sm_step f c)).countP is_do_shutdown =
            (calls c).countP is_do_shutdown + 1) ∧
        (f (c.polls + 1) = true →
          (calls (sm_step f c)).countP is_do_shutdown =
            (calls c).countP is_do_shutdown + 2 ∧
          (calls (sm_step f c)).count
              (Call.do_shutdown (if c.sm.newlevel = 0 then SHUT_OFF else SHUT_REBOOT)) =
            (calls c).count
              (Call.do_shutdown (if c.sm.newlevel = 0 then SHUT_OFF else SHUT_REBOOT)) + 1)) := by
  have e1 : sm_pass f c = case_runlevel_wait f (log_state c) := sm_pass_runlevel_wait f c hs
  have hf := case_runlevel_wait_done f (log_state c) hd
  have ht := case_runlevel_wait_done_trace f (log_state c) hd
  have hg := case_runlevel_wait_done_nologin f (log_state c) hd
  simp only [log_state_fields] at hf ht hg
  have g1 : sm_step f c = sm_step f (sm_pass f c) :=
    sm_step_go f c (by rw [e1, hf.1, hs]; simp)
  have hm : c.runlevel = 1 ∨ c.runlevel = 0 ∨ c.runlevel = 6 := by
    rcases hmd with ⟨e, _⟩ | ⟨e, _⟩ <;> simp [e]
  have base : after_shutdown c.runlevel c.sm.newlevel md
      ((calls c).count (Call.do_shutdown md) + 1) ((calls c).countP is_do_shutdown + 1)
      (sm_pass f c) := by
    rw [e1]
    refine ⟨?_, Or.inl ⟨hf.2.2.2.2.1, by rw [hg]; simpa using hm, Or.inl hf.1, Or.inl hf.2.1, ?_⟩⟩
    · simp only [calls, ht, List.map_append, List.count_append]
      rcases hmd with ⟨e, e2⟩ | ⟨e, e2⟩ <;> subst e2 <;> simp [e]
    · simp only [calls, ht, List.map_append, List.countP_append]
      rcases hmd with ⟨e, e2⟩ | ⟨e, e2⟩ <;> simp [e, is_do_shutdown]
  have key := sm_step_inv f _ (after_shutdown_kept f c.runlevel c.sm.newlevel md _ _ hmd) _ base
  rw [← g1] at key
  obtain ⟨k1, k2⟩ := key
  refine ⟨k1, ?_, ?_, ?_, fun hall => sm_step_polls_done_running f c hall, ?_⟩
  · obtain ⟨ts, hts⟩ := sm_step_trace_grows f (sm_pass f c)
    rw [← g1, e1, ht] at hts
    refine ⟨_, by rw [hts, List.append_assoc, List.append_assoc], ?_⟩
    simp [hm]
  · intro hno
    rcases k2 with ⟨_, _, _, _, g⟩ | ⟨_, _, _, _, g⟩ | ⟨q1, q2, q3, q4, g⟩
    · exact g
    · exact g
    · rcases g with ⟨_, g⟩ | ⟨_, g⟩
      · exact g
      · rw [g]
        have : ¬ (c.sm.newlevel = 0 ∨ c.sm.newlevel = 6) := fun h => hno ⟨q2, h⟩
        simp [this]
  · intro hno
    rcases k2 with ⟨_, g, _⟩ | ⟨_, _, q2, q3, _⟩ | ⟨_, q2, q3, _⟩
    · exact g
    · exact absurd ⟨q3.1, q3.2, q2⟩ hno
    · exact absurd ⟨q3.1, q3.2, q2⟩ hno
  · rintro ⟨hne, h06⟩
    have hin : 0 ≤ c.sm.newlevel ∧ c.sm.newlevel ≤ 9 := by
      rcases h06 with e | e <;> rw [e] <;> constructor <;> omega
    obtain ⟨_, a1, a2, a3, a4, a5, a6, a7, a8, a9, a10⟩ :=
      sm_step_runlevel_wait_done f c hs hd
    obtain ⟨g2, _, _, m1, m2, m3, m4, m5, m6, m7, m8, m9, m10⟩ :=
      sm_step_enter_change f (sm_pass f c) a1 (by rw [a2]; exact hin)
        (by rw [a2, a5]; exact fun e => hne e.symm)
    obtain ⟨q1, q2, q3, q4, _⟩ := sm_step_no_assignment f _ m2 (by rw [m1]; simp)
    rw [a2, a5] at m9
    rw [g1, g2]
    refine ⟨by rw [q2, m5, a2], by rw [q3, m6, a5], ?_, ?_, ?_⟩
    · rw [q4, m10, a8]
      simp [List.count_append]
    · intro hd2
      obtain ⟨p1, _, _, _, _, p6, _⟩ :=
        sm_step_wait_parked f (sm_pass f (sm_pass f (sm_pass f c))) (Or.inl m1)
          (by rw [m8, a7]; exact hd2)
      refine ⟨by rw [p1]; exact m1, ?_⟩
      simp only [calls]
      rw [p6, m9, a10]
      simp only [List.map_append, List.countP_append]
      rcases hmd with ⟨e, _⟩ | ⟨e, _⟩ <;> simp [e, is_do_shutdown]
    · intro hd2
      obtain ⟨g3, n1, n2, n3, n4, n5, n6, n7, n8, n9, n10⟩ :=
        sm_step_runlevel_wait_done f (sm_pass f (sm_pass f (sm_pass f c))) m1
          (by rw [m8, a7]; exact hd2)
      obtain ⟨ts, t1, t2⟩ := sm_step_no_shutdown f _ (n2.trans m2) (by rw [n1]; simp)
        (by rw [n1]; simp)
      have t3 : (ts.map call_record.call).countP is_do_shutdown = 0 := by
        rw [List.countP_eq_length_filter, t2]; rfl
      have t4 : ∀ x, (ts.map call_record.call).count (Call.do_shutdown x) = 0 := by
        intro x
        apply List.count_eq_zero.mpr
        intro hx
        have : Call.do_shutdown x ∈ (ts.map call_record.call).filter is_do_shutdown :=
          List.mem_filter.mpr ⟨hx, rfl⟩
        rw [t2] at this
        exact absurd this (by simp)
      rw [m4, m5, m6, a2, a5] at n10
      simp only [calls]
      rw [g3, t1, n10, m9, a10]
      simp only [List.map_append, List.countP_append, List.count_append, t3, t4]
      rcases hmd with ⟨e, _⟩ | ⟨e, _⟩ <;> rcases h06 with e' | e'
      · exact absurd (e'.trans e.symm) hne
      · simp [e, e', is_do_shutdown]
      · simp [e, e', is_do_shutdown]
      · exact absurd (e'.trans e.symm) hne

/-- C2 (amended) at the run of the spec: level 0 requested from level 3, the
first poll (number 0) answered false and parked, the poll of this call (number
1) and every later one answering true. -/
theorem C2_shutdown_on_halt_or_reboot_witness :
    (calls (sm_step (fun k => decide (0 < k))
        ⟨⟨SM_RUNLEVEL_WAIT_STATE, -1, 0, 1⟩, 0, 3, false, 1, [], []⟩)).count
      (Call.do_shutdown SHUT_OFF) = 1 ∧
    (sm_step (fun k => decide (0 < k))
        ⟨⟨SM_RUNLEVEL_WAIT_STATE, -1, 0, 1⟩, 0, 3, false, 1, [], []⟩).sm.state
      = SM_RUNNING_STATE :=
  have h := C2_shutdown_on_halt_or_reboot (fun k => decide (0 < k))
    ⟨⟨SM_RUNLEVEL_WAIT_STATE, -1, 0, 1⟩, 0, 3, false, 1, [], []⟩ SHUT_OFF rfl
    (Or.inl ⟨rfl, rfl⟩) rfl
  ⟨h.1, h.2.2.2.2.1 (fun _ hk => decide_eq_true (Nat.lt_of_lt_of_le Nat.zero_lt_one hk))⟩

end Finit
